import Mathlib

/-!
# Verification of the My-DLS two-pass assembler core

This file is a shallow embedding, in Lean 4, of the symbol-resolution and
code-generation core of `Assembler/assembler.py` from the My-DLS repository,
together with theorems settling the frozen specification claims.

Conventions of the embedding:

* Python strings are Lean `String`s; helper functions on `List Char` implement
  the string operations (`str.split()`, `re.sub(r'//.*','',s)`, slicing, the
  anchored regular-expression matches of the ALU instruction formats).
* Machine integers are `Nat`/`Int`; Python's `v & 0xFF` on a possibly negative
  `int` equals `v % 256` with a non-negative remainder, which is `Int.emod`.
* Fallible code (Python `raise`, uncaught `KeyError`/`IndexError`/`TypeError`,
  or `sys.exit` on a caught `ValueError`) is modelled by `Option`: `none`
  means the assembly run produced no output.
* `parse_instruction` distinguishes "returned `None`" (a blank/label line,
  skipped by callers) from "raised" (fatal); its model therefore returns
  `Option (Option PInstr)`: `none` = raised, `some none` = returned `None`.
* The wall-clock derived `unique_id` of `generate_if_instructions`
  (`int(time.time()*1000000) % 1000000`) is an explicit parameter; `assemble`
  takes the list of ids produced by successive clock reads, one per expanded
  `IF` block.
* Source lines are the lines of the file with their trailing newline removed
  (every consumer of a line strips it before use, so this is faithful).
* The `line_labels` dictionary of the source has keys of the exact shape
  `f'L{n}'` for a line number `n`, and is only ever read back through keys of
  that same shape (`parse_instruction` converts a token `L<digits>` to the
  number and back); it is therefore modelled as a `Nat`-keyed association
  list keyed by `n`.
* File reading, the clipboard output, the `outputBinary.txt` listing and
  `input()` prompting are outside the core and are not modelled; `assemble`
  here stops at the padded, range-validated instruction image from which the
  two ROM word lists are formed.
-/

set_option maxRecDepth 10000

namespace DLS

/-! ## Character-list utilities (Python string operations) -/

/-- `p` is a prefix of `l` (character lists). -/
def isPre : List Char → List Char → Bool
  | [], _ => true
  | _ :: _, [] => false
  | p :: ps, c :: cs => p == c && isPre ps cs

/-- Python `s.upper()` (character-wise ASCII upper-casing).  The char-list
implementation is used throughout instead of `String.toUpper` so that every
definition evaluates by kernel reduction. -/
def strUpper (s : String) : String := ⟨s.toList.map Char.toUpper⟩

/-- Strip leading and trailing whitespace from a character list. -/
def trimChars (cs : List Char) : List Char :=
  ((cs.dropWhile Char.isWhitespace).reverse.dropWhile Char.isWhitespace).reverse

/-- Python `s.strip()`. -/
def strTrim (s : String) : String := ⟨trimChars s.toList⟩

/-- Python `s.startswith(p)`. -/
def strStarts (s p : String) : Bool := isPre p.toList s.toList

/-- Python `s.endswith(p)`. -/
def strEnds (s p : String) : Bool := isPre p.toList.reverse s.toList.reverse

/-- Python `s[n:]`. -/
def strDrop (s : String) (n : Nat) : String := ⟨s.toList.drop n⟩

/-- Python `s[:-n]` (for `0 < n ≤ len(s)`). -/
def strDropRight (s : String) (n : Nat) : String :=
  ⟨s.toList.take (s.toList.length - n)⟩

/-- `s == ""`. -/
def strEmpty (s : String) : Bool := s.toList.isEmpty

/-- Python `' '.join(parts)`. -/
def joinSpace : List String → String
  | [] => ""
  | [s] => s
  | s :: rest => s ++ " " ++ joinSpace rest

/-- Decimal digits of `n`, most significant first (fuel-driven so that it
evaluates by kernel reduction; the fuel `n + 1` always suffices). -/
def natDigitsGo : Nat → Nat → List Char → List Char
  | 0, _, acc => acc
  | fuel + 1, n, acc =>
    let d := Char.ofNat (48 + n % 10)
    if n < 10 then d :: acc else natDigitsGo fuel (n / 10) (d :: acc)

/-- Decimal representation of a natural number (Python `f'{n}'`). -/
def natRepr (n : Nat) : String := ⟨natDigitsGo (n + 1) n []⟩

/-- `needle` occurs as a contiguous subsequence of `hay` (Python `in`). -/
def containsSeq (p : List Char) : List Char → Bool
  | [] => isPre p []
  | c :: rest => isPre p (c :: rest) || containsSeq p rest

/-- Python `needle in hay` on strings. -/
def containsSub (needle hay : String) : Bool :=
  containsSeq needle.toList hay.toList

/-- Python `c in s` for a single character. -/
def containsChar (c : Char) (s : String) : Bool :=
  s.toList.contains c

/-- Split at the first occurrence of `c`: returns the part before, and
(`some`) the part after when `c` occurs.  Implements `s.split(c)[0]` and
`s.split(c, 1)[1]`. -/
def splitAtFirst (c : Char) : List Char → List Char × Option (List Char)
  | [] => ([], none)
  | x :: xs =>
    if x == c then ([], some xs)
    else
      let r := splitAtFirst c xs
      (x :: r.1, r.2)

/-- Part of `s` before the first occurrence of `c` (all of `s` if absent):
Python `s.split(c)[0]`. -/
def beforeFirst (c : Char) (s : String) : String :=
  ⟨(splitAtFirst c s.toList).1⟩

/-- Part of `s` after the first occurrence of `c`, or `""` when `c` is absent:
Python `s.split(c, 1)[1]` guarded by `c in s`. -/
def afterFirst (c : Char) (s : String) : String :=
  match (splitAtFirst c s.toList).2 with
  | some rest => ⟨rest⟩
  | none => ""

/-- Worker for `splitWS`; `cur` is the current token, reversed. -/
def splitWSGo : List Char → List Char → List String
  | cur, [] => if cur.isEmpty then [] else [⟨cur.reverse⟩]
  | cur, c :: cs =>
    if c.isWhitespace then
      if cur.isEmpty then splitWSGo [] cs
      else (⟨cur.reverse⟩ : String) :: splitWSGo [] cs
    else splitWSGo (c :: cur) cs

/-- Python `s.split()`: split on runs of whitespace, dropping empty tokens. -/
def splitWS (s : String) : List String :=
  splitWSGo [] s.toList

/-- Drop everything from the first `//` on: `re.sub(r'//.*', '', s)`
(the sources never contain embedded newlines in one line). -/
def stripCommentChars : List Char → List Char
  | [] => []
  | '/' :: '/' :: _ => []
  | c :: cs => c :: stripCommentChars cs

/-- `re.sub(r'//.*', '', s)` on one source line. -/
def stripComment (s : String) : String :=
  ⟨stripCommentChars s.toList⟩

/-- `re.sub(r'//.*', '', line).strip()` — the cleaned form of a source line. -/
def cleanLine (s : String) : String :=
  strTrim (stripComment s)

/-- The normalisation at the top of `parse_instruction`:
`line.strip().upper()` followed by the comment `re.sub` (in that order, so a
stripped comment can leave trailing whitespace behind). -/
def normalizeLine (s : String) : String :=
  stripComment (strUpper (strTrim s))

/-! ## Numeric literals -/

/-- Value of one digit character in the given base (the lines are already
upper-cased where hexadecimal digits occur). -/
def digitVal (base : Nat) (c : Char) : Option Nat :=
  let v : Nat :=
    if '0' ≤ c ∧ c ≤ '9' then c.toNat - '0'.toNat
    else if 'A' ≤ c ∧ c ≤ 'Z' then c.toNat - 'A'.toNat + 10
    else 99
  if v < base then some v else none

/-- Accumulating worker for `digitsVal`. -/
def digitsValGo (base acc : Nat) : List Char → Option Nat
  | [] => some acc
  | c :: cs =>
    match digitVal base c with
    | some v => digitsValGo base (acc * base + v) cs
    | none => none

/-- Value of a non-empty all-digit string in the given base. -/
def digitsVal (base : Nat) (cs : List Char) : Option Nat :=
  if cs.isEmpty then none else digitsValGo base 0 cs

/-- Python `int(s)`: surrounding whitespace tolerated, optional sign,
then a non-empty run of decimal digits. -/
def decIntOf (s : String) : Option Int :=
  match trimChars s.toList with
  | '-' :: rest => (digitsVal 10 rest).map (fun n => -(n : Int))
  | '+' :: rest => (digitsVal 10 rest).map (fun n => (n : Int))
  | rest => (digitsVal 10 rest).map (fun n => (n : Int))

/-- `parse_number` of the source: upper-case the token; `0X`-prefixed tokens
are parsed as hexadecimal via `int(token, 16)` (which itself strips
whitespace and accepts the `0X` prefix), `0B`-prefixed as binary, anything
else as a decimal integer. -/
def parse_number (token : String) : Option Int :=
  let t := strUpper token
  if strStarts t "0X" then (digitsVal 16 ((trimChars t.toList).drop 2)).map (fun n => (n : Int))
  else if strStarts t "0B" then (digitsVal 2 ((trimChars t.toList).drop 2)).map (fun n => (n : Int))
  else decIntOf t

/-- Python `v & 0xFF` for an `int` of either sign. -/
def mask8 (v : Int) : Nat := (v % 256).toNat

/-- Python `v & 0xF` for an `int` of either sign. -/
def mask4 (v : Int) : Nat := (v % 16).toNat

/-! ## Hardware tables of the source -/

/-- Register name to 3-bit code table (`REGISTERS`). -/
def REGISTERS : List (String × Nat) :=
  [("A", 0), ("B", 1), ("C", 2), ("D", 3), ("X", 4), ("Y", 5)]

/-- `VALUE_TYPES['REGISTER']`. -/
def VT_REGISTER : Nat := 0
/-- `VALUE_TYPES['BUILTIN']`. -/
def VT_BUILTIN : Nat := 1
/-- `VALUE_TYPES['RAM']`. -/
def VT_RAM : Nat := 2

/-- Opcode table (`OPCODES`). -/
def OP_NOP : Nat := 0
def OP_ALU : Nat := 1
def OP_STORE : Nat := 2
def OP_LOAD : Nat := 3
def OP_SET : Nat := 4
def OP_JUMP : Nat := 5
def OP_DRAW : Nat := 6
def OP_CLEARSCREEN : Nat := 7
def OP_REFRESHSCREEN : Nat := 8
def OP_RANDOM : Nat := 9
def OP_STACK : Nat := 10
def OP_HALT : Nat := 255

/-- `STACK_TYPES`. -/
def STK_RETURN : Nat := 0
def STK_PARAMETERS : Nat := 1
def STK_GENERAL : Nat := 2

/-- `STACK_OPS`. -/
def STKOP_PUSH : Nat := 0
def STKOP_POP : Nat := 1

/-- ALU operation table (`ALU_OPS`). -/
def ALU_OPS : List (String × Nat) :=
  [("+", 0), ("-", 1), ("*", 2), ("/", 3), ("NAND", 4), ("AND", 5), ("NOT", 6),
   ("OR", 7), ("NOR", 8), ("XOR", 9), ("XNOR", 10), ("COMPARE", 11),
   ("COMPARE_SIGNED", 12)]

/-- `JUMP_TYPES.get(jump_type, 0) if jump_type else 0`: numeric jump-type code
from the optional condition string. -/
def jumpTypeCode : Option String → Nat
  | none => 0
  | some s => if s = "ZERO" then 1 else if s = "CARRY" then 2 else if s = "KEY" then 3 else 0

/-! ## `parse_value` -/

/-- `parse_value` of the source: register name, `[address]`, or constant,
with 8-bit truncation of numeric values. -/
def parse_value (value_str : String) : Option (Nat × Nat) :=
  let v := strUpper (strTrim value_str)
  match List.lookup v REGISTERS with
  | some code => some (VT_REGISTER, code)
  | none =>
    if strStarts v "[" && strEnds v "]" then
      (parse_number (strDropRight (strDrop v 1) 1)).map (fun a => (VT_RAM, mask8 a))
    else
      (parse_number v).map (fun a => (VT_BUILTIN, mask8 a))

/-! ## Instructions -/

/-- A fully-encoded machine instruction: the 4-tuple
`(data3, data2, data1, opcode)` of the source. -/
structure Instr where
  data3 : Nat
  data2 : Nat
  data1 : Nat
  opcode : Nat
deriving DecidableEq, Repr

/-- The `(0, 0, 0, OPCODES['NOP'])` instruction. -/
def nopInstr : Instr := ⟨0, 0, 0, OP_NOP⟩

/-- The `(0, 0, 0, OPCODES['HALT'])` instruction. -/
def haltInstr : Instr := ⟨0, 0, 0, OP_HALT⟩

/-- A pending instruction-stream entry, as built by `parse_instruction` and
the `assemble` loops before final resolution.  Besides concrete 4-tuples the
source uses marker tuples:

* `('FUNCTION_CALL', name, 0, jump_type, key)` — a 5-tuple (`funcCall`);
* `('RETURN', 0, 0, 'SPECIAL')` (`retMark`);
* `('STORE_RETURN_ADDR', loc, 0, 'SPECIAL')` (`storeRet`);
* `('LOAD_RETURN_ADDR', 0, 0, 'SPECIAL')` (`loadRetMark`);
* `(key, jt, func_name, OPCODES['JUMP'])` — a jump whose `data1` is still a
  function-name string (`jumpName`);
* `('IF_STATEMENT', line, 0, 'SPECIAL')`, `('ELSE', 0, 0, 'SPECIAL')`,
  `('END', 0, 0, 'SPECIAL')` (`ifStmt`/`elseMark`/`endMark`). -/
inductive PInstr where
  | conc (i : Instr)
  | funcCall (name : String) (jumpType : Option String) (key : Nat)
  | retMark
  | storeRet (loc : Nat)
  | loadRetMark
  | jumpName (key jt : Nat) (name : String)
  | ifStmt (line : String)
  | elseMark
  | endMark
deriving DecidableEq, Repr

/-! ## The ALU expression formats

`parse_instruction` recognises four anchored regular expressions, tried in
order:

1. `([A-Z0-9\[\]]+)\s*(OPS)\s*([A-Z0-9\[\]]+)\s*=\s*([A-Z]+)`
2. `([A-Z]+)\s*=\s*([A-Z0-9\[\]]+)\s*(OPS)\s*([A-Z0-9\[\]]+)`
3. `(NOT)\s+([A-Z0-9\[\]]+)\s*=\s*([A-Z]+)`
4. `([A-Z]+)\s*=\s*(NOT)\s+([A-Z0-9\[\]]+)`

where `OPS` is the alternation `[+*/]|NAND|AND|OR|NOR|XOR|XNOR|COMPARE|`
`COMPARE_SIGNED|-`.  The matchers below reproduce Python's leftmost match
with backtracking: a greedy operand group is retried with shorter lengths
(longest first) when the continuation fails, and the operator alternatives
are tried in the alternation's order.  Groups whose follow-set is disjoint
from their character class (`\s*=` after an operand, the final group) need
no backtracking and take their maximal run. -/

/-- The operand character class `[A-Z0-9\[\]]`. -/
def isClass1 (c : Char) : Bool :=
  c.isUpper || c.isDigit || c == '[' || c == ']'

/-- `\s*`. -/
def skipWS (cs : List Char) : List Char :=
  cs.dropWhile Char.isWhitespace

/-- The operator alternation, in the order of the regular expression. -/
def aluOpsAlt : List String :=
  ["+", "*", "/", "NAND", "AND", "OR", "NOR", "XOR", "XNOR", "COMPARE",
   "COMPARE_SIGNED", "-"]

/-- Try each operator alternative in order; on a literal match run the
continuation, backtracking to the next alternative when it fails. -/
def tryOpsWith {α : Type} (cont : List Char → Option α) :
    List String → List Char → Option (String × α)
  | [], _ => none
  | op :: ops, cs =>
    if isPre op.toList cs then
      match cont (cs.drop op.toList.length) with
      | some r => some (op, r)
      | none => tryOpsWith cont ops cs
    else tryOpsWith cont ops cs

/-- `\s*([A-Z0-9\[\]]+)\s*=\s*([A-Z]+)` — the shared tail of formats 1/3. -/
def tailEqReg (cs : List Char) : Option (String × String) :=
  let r1 := skipWS cs
  let g2 := r1.takeWhile isClass1
  if g2.isEmpty then none
  else
    match skipWS (r1.drop g2.length) with
    | '=' :: r3 =>
      let r4 := skipWS r3
      let g3 := r4.takeWhile Char.isUpper
      if g3.isEmpty then none else some (⟨g2⟩, ⟨g3⟩)
    | _ => none

/-- Backtracking over the length of the first operand group of format 1. -/
def matchBin1G1 (cs : List Char) : Nat → Option (String × String × String × String)
  | 0 => none
  | n + 1 =>
    match tryOpsWith tailEqReg aluOpsAlt (skipWS (cs.drop (n + 1))) with
    | some (op, g2, g3) => some (⟨cs.take (n + 1)⟩, op, g2, g3)
    | none => matchBin1G1 cs n

/-- Format 1 `val1 op val2 = outreg`: returns `(val1, op, val2, outreg)`. -/
def matchAluBin1 (s : String) : Option (String × String × String × String) :=
  let cs := s.toList
  matchBin1G1 cs (cs.takeWhile isClass1).length

/-- `\s*([A-Z0-9\[\]]+)` at the end of the pattern. -/
def tailClass1 (cs : List Char) : Option String :=
  let r := skipWS cs
  let g := r.takeWhile isClass1
  if g.isEmpty then none else some ⟨g⟩

/-- Backtracking over the length of the first operand group of format 2's
right-hand side. -/
def matchBin2G2 (cs : List Char) : Nat → Option (String × String × String)
  | 0 => none
  | n + 1 =>
    match tryOpsWith tailClass1 aluOpsAlt (skipWS (cs.drop (n + 1))) with
    | some (op, g3) => some (⟨cs.take (n + 1)⟩, op, g3)
    | none => matchBin2G2 cs n

/-- Format 2 `outreg = val1 op val2`: returns `(outreg, val1, op, val2)`. -/
def matchAluBin2 (s : String) : Option (String × String × String × String) :=
  let cs := s.toList
  let g1 := cs.takeWhile Char.isUpper
  if g1.isEmpty then none
  else
    match skipWS (cs.drop g1.length) with
    | '=' :: r2 =>
      let r3 := skipWS r2
      (matchBin2G2 r3 (r3.takeWhile isClass1).length).map
        (fun r => (⟨g1⟩, r.1, r.2.1, r.2.2))
    | _ => none

/-- Format 3 `NOT val1 = outreg`: returns `(val1, outreg)`. -/
def matchNot1 (s : String) : Option (String × String) :=
  let cs := s.toList
  if isPre "NOT".toList cs then
    match cs.drop 3 with
    | c :: rest => if c.isWhitespace then tailEqReg (c :: rest) else none
    | [] => none
  else none

/-- Format 4 `outreg = NOT val1`: returns `(outreg, val1)`. -/
def matchNot2 (s : String) : Option (String × String) :=
  let cs := s.toList
  let g1 := cs.takeWhile Char.isUpper
  if g1.isEmpty then none
  else
    match skipWS (cs.drop g1.length) with
    | '=' :: r2 =>
      let r3 := skipWS r2
      if isPre "NOT".toList r3 then
        match r3.drop 3 with
        | c :: rest =>
          if c.isWhitespace then
            let r4 := skipWS (c :: rest)
            let g3 := r4.takeWhile isClass1
            if g3.isEmpty then none else some (⟨g1⟩, ⟨g3⟩)
          else none
        | [] => none
      else none
    | _ => none

/-! ## ALU encoding

In the packed fields below, the components are disjoint nibble/bit groups
(each summand already truncated into its slot), so the source's `(a << k) | b`
is written as `2^k * a + b`; the one exception is noted at
`generate_if_instructions`, whose untruncated `(right << 4) | left` is kept
as a genuine bitwise or. -/

/-- Body of the binary-ALU branches of `parse_instruction` (formats 1/2),
applied to the captured groups.  Two RAM operands raise; an unknown output
register name is an uncaught `KeyError`. -/
def encodeAluBinary (val1_str op val2_str outreg : String) : Option Instr :=
  match parse_value val1_str, parse_value val2_str with
  | some (val1_type, val1), some (val2_type, val2) =>
    if val1_type == VT_RAM && val2_type == VT_RAM then none
    else
      match List.lookup op ALU_OPS, List.lookup outreg REGISTERS with
      | some opnum, some out =>
        let reg1_nibble := if val1_type == VT_REGISTER then val1 else val1 % 16
        some ⟨16 * reg1_nibble + opnum % 16,
              64 * val2_type + 16 * val1_type + out,
              16 * (val2 % 16) + val1 % 16,
              OP_ALU⟩
      | _, _ => none
  | _, _ => none

/-- Body of the unary-`NOT` branches of `parse_instruction` (formats 3/4):
`val2 = 0` with `val2_type = REGISTER`. -/
def encodeAluNot (val1_str outreg : String) : Option Instr :=
  match parse_value val1_str with
  | some (val1_type, val1) =>
    match List.lookup "NOT" ALU_OPS, List.lookup outreg REGISTERS with
    | some opnum, some out =>
      let reg1_nibble := if val1_type == VT_REGISTER then val1 else val1 % 16
      some ⟨16 * reg1_nibble + opnum % 16,
            64 * VT_REGISTER + 16 * val1_type + out,
            16 * (0 % 16) + val1 % 16,
            OP_ALU⟩
    | _, _ => none
  | _ => none

/-- The four ALU expression formats of `parse_instruction`, tried in source
order.  `none` = no format matched (fall through to the `IF`/`ELSE`/`END`
checks); `some none` = a format matched but encoding raised;
`some (some i)` = encoded. -/
def parseAluLine (l : String) : Option (Option Instr) :=
  match matchAluBin1 l with
  | some (v1, op, v2, out) => some (encodeAluBinary v1 op v2 out)
  | none =>
    match matchAluBin2 l with
    | some (out, v1, op, v2) => some (encodeAluBinary v1 op v2 out)
    | none =>
      match matchNot1 l with
      | some (v1, out) => some (encodeAluNot v1 out)
      | none =>
        match matchNot2 l with
        | some (out, v1) => some (encodeAluNot v1 out)
        | none => none

/-! ## `parse_instruction`

Modelled branch by branch in source order.  The line is first normalised by
`line.strip().upper()` followed by the comment `re.sub` (`normalizeLine`);
each branch receives the normalised line.  Python indexing/`dict` accesses
that can raise `IndexError`/`KeyError` are modelled by `Option` access. -/

/-- `RANDOM R`. -/
def randomBranch (l : String) : Option (Option PInstr) :=
  let parts := splitWS l
  if parts.length ≠ 2 then none
  else
    match List.lookup (parts.getD 1 "") REGISTERS with
    | some reg_code => some (some (.conc ⟨0, reg_code, 0, OP_RANDOM⟩))
    | none => none

/-- Shared value/register resolution of the `PUSH` branch: a register name
pushes from the register, anything else is a literal parsed by
`parse_number` and truncated to 8 bits (`reg = 0xF` meaning "no register"). -/
def pushValueOf (value_str : String) : Option (Nat × Nat) :=
  match List.lookup value_str REGISTERS with
  | some r => some (0, r)
  | none => (parse_number value_str).map (fun v => (mask8 v, 15))

/-- `PUSH [stack] value` / `PUSH value`. -/
def pushBranch (l : String) : Option (Option PInstr) :=
  let parts := splitWS l
  let stGeneral := STK_GENERAL
  if parts.length ≥ 3 then
    let stack_name := parts.getD 1 ""
    let (stack_type, value_str) :=
      if stack_name = "RETURN" then (STK_RETURN, parts.getD 2 "")
      else if stack_name = "PARAMETERS" then (STK_PARAMETERS, parts.getD 2 "")
      else if stack_name = "GENERAL" then (STK_GENERAL, parts.getD 2 "")
      else (stGeneral, parts.getD 1 "")
    match pushValueOf value_str with
    | some (value, reg) =>
      some (some (.conc ⟨4 * STKOP_PUSH + stack_type, reg, value, OP_STACK⟩))
    | none => none
  else if parts.length ≥ 2 then
    match pushValueOf (parts.getD 1 "") with
    | some (value, reg) =>
      some (some (.conc ⟨4 * STKOP_PUSH + stGeneral, reg, value, OP_STACK⟩))
    | none => none
  else
    -- `PUSH` alone: the defaults survive to the encoding
    some (some (.conc ⟨4 * STKOP_PUSH + stGeneral, 15, 0, OP_STACK⟩))

/-- `POP [stack] register` / `POP register`. -/
def popBranch (l : String) : Option (Option PInstr) :=
  let parts := splitWS l
  if parts.length ≥ 3 then
    let stack_name := parts.getD 1 ""
    let (stack_type, reg_str) :=
      if stack_name = "RETURN" then (STK_RETURN, parts.getD 2 "")
      else if stack_name = "PARAMETERS" then (STK_PARAMETERS, parts.getD 2 "")
      else if stack_name = "GENERAL" then (STK_GENERAL, parts.getD 2 "")
      else (STK_GENERAL, parts.getD 1 "")
    match List.lookup reg_str REGISTERS with
    | some reg => some (some (.conc ⟨4 * STKOP_POP + stack_type, reg, 0, OP_STACK⟩))
    | none => none
  else if parts.length ≥ 2 then
    match List.lookup (parts.getD 1 "") REGISTERS with
    | some reg => some (some (.conc ⟨4 * STKOP_POP + STK_GENERAL, reg, 0, OP_STACK⟩))
    | none => none
  else none

/-- `SET R TO N` (the value is taken from the *last* token). -/
def setBranch (l : String) : Option (Option PInstr) :=
  let parts := splitWS l
  if parts.length < 4 ∨ parts.getD 2 "" ≠ "TO" then none
  else
    match List.lookup (parts.getD 1 "") REGISTERS with
    | none => none
    | some reg =>
      match parse_number (parts.getLastD "") with
      | some value => some (some (.conc ⟨0, reg, mask8 value, OP_SET⟩))
      | none => none

/-- Python `s.isalpha()` (ASCII): non-empty and all alphabetic. -/
def isAlphaStr (s : String) : Bool :=
  ¬s.toList.isEmpty && s.toList.all Char.isAlpha

/-- `STORE R INTO ADDR` (or the reversed `STORE ADDR INTO R`, which encodes
a `LOAD`). -/
def storeBranch (l : String) : Option (Option PInstr) :=
  let parts := splitWS l
  match parts.get? 1 with
  | none => none
  | some p1 =>
    if isAlphaStr p1 then
      match List.lookup p1 REGISTERS with
      | none => none
      | some reg =>
        match parts.get? 3 with
        | none => none
        | some p3 =>
          match parse_number p3 with
          | some addr => some (some (.conc ⟨0, reg, mask8 addr, OP_STORE⟩))
          | none => none
    else
      match parse_number p1 with
      | none => none
      | some addr =>
        match parts.get? 3 with
        | none => none
        | some p3 =>
          match List.lookup p3 REGISTERS with
          | some reg => some (some (.conc ⟨0, reg, mask8 addr, OP_LOAD⟩))
          | none => none

/-- `LOAD ADDR INTO R`. -/
def loadBranch (l : String) : Option (Option PInstr) :=
  let parts := splitWS l
  match parts.get? 1 with
  | none => none
  | some p1 =>
    match parse_number p1 with
    | none => none
    | some addr =>
      match parts.get? 3 with
      | none => none
      | some p3 =>
        match List.lookup p3 REGISTERS with
        | some reg => some (some (.conc ⟨0, reg, mask8 addr, OP_LOAD⟩))
        | none => none

/-- `parse_draw_param`: a register name yields its register code, anything
else is `parse_number(param) & 0xF`. -/
def parse_draw_param (param : String) : Option Nat :=
  let p := strUpper param
  match List.lookup p REGISTERS with
  | some code => some code
  | none => (parse_number p).map mask4

/-- `DRAW X Y R G B`, applied to the whitespace-split parts of the line. -/
def drawBranch (parts : List String) : Option (Option PInstr) :=
  if parts.length ≠ 6 then none
  else
    match parse_draw_param (parts.getD 1 ""), parse_draw_param (parts.getD 2 ""),
          parse_draw_param (parts.getD 3 ""), parse_draw_param (parts.getD 4 ""),
          parse_draw_param (parts.getD 5 "") with
    | some px, some py, some pr, some pg, some pb =>
      let x := px % 16
      let y := py % 16
      let r := pr % 16
      let g := pg % 16
      let b := pb % 16
      some (some (.conc ⟨16 * 0 + b, 16 * r + g, 16 * y + x, OP_DRAW⟩))
    | _, _, _, _, _ => none

/-- The condition parsing at the top of the `JUMP` branch: `jump_type` stays
a string (or `None`); the `KEYS` lookup of the dead `elif condition == 'KEY'`
arm is unreachable because `'KEY' in JUMP_TYPES` already holds, so `key`
stays 0 here. -/
def jumpCondOf (parts : List String) : Option String :=
  if parts.length > 2 then
    let condition_index := if parts.getD 2 "" = "IF" then 3 else 2
    if parts.length > condition_index then
      let condition := parts.getD condition_index ""
      if condition = "ZERO" ∨ condition = "CARRY" ∨ condition = "KEY" then some condition
      else none
    else none
  else none

/-- The `ANY KEY` special case checked at encoding time
(`parts[3] == 'ANY' and parts[4] == 'KEY'`, or the same one position
earlier). -/
def jumpAnyKey (parts : List String) : Bool :=
  (parts.length > 4 && parts.getD 3 "" == "ANY" && parts.getD 4 "" == "KEY")
  || (parts.length > 3 && parts.getD 2 "" == "ANY" && parts.getD 3 "" == "KEY")

/-- Encode a jump to the resolved numeric address `addr`:
`addr = (addr + 1) & 0xFF` — the hardware `+1` fix-up — with
`data3 = (usereg << 4) | (key & 0xF)` (`usereg = 0`),
`data2 = (reg << 4) | (jt & 0xF)` (`reg = 0`). -/
def encodeJump (parts : List String) (jumpType : Option String) (key : Nat)
    (addr : Int) : PInstr :=
  let (jt, key') :=
    if jumpAnyKey parts then (3, 15) else (jumpTypeCode jumpType, key)
  .conc ⟨16 * 0 + key' % 16, 16 * 0 + jt % 16, mask8 (addr + 1), OP_JUMP⟩

/-- The `JUMP` branch of `parse_instruction`: resolve the target through, in
order, the `L<n>` line aliases, the function table (bare or bracketed name,
also bracketed/bare fake functions), the label table, and finally a numeric
literal; function (and fake-function) targets return the `FUNCTION_CALL`
marker instead of an encoded jump. -/
def jumpBranch (l : String) (labels : List (String × Nat))
    (functions : List (String × Option Nat)) (lineLabels : List (Nat × Nat))
    (fakeFunctions : List (String × List String)) : Option (Option PInstr) :=
  let parts := splitWS l
  match parts.get? 1 with
  | none => none
  | some label =>
    let jumpType := jumpCondOf parts
    let key : Nat := 0
    if ¬lineLabels.isEmpty ∧ strStarts label "L" ∧
        ¬strEmpty (strDrop label 1) ∧ (strDrop label 1).toList.all Char.isDigit then
      match digitsVal 10 (strDrop label 1).toList with
      | none => none
      | some line_num =>
        match List.lookup line_num lineLabels with
        | some addr => some (some (encodeJump parts jumpType key (addr : Int)))
        | none => none
    else if ¬functions.isEmpty ∧ (List.lookup label functions).isSome then
      some (some (.funcCall label jumpType key))
    else if ¬functions.isEmpty ∧ strStarts label "[" ∧ strEnds label "]" then
      let func_name := strDropRight (strDrop label 1) 1
      if (List.lookup func_name functions).isSome then
        some (some (.funcCall func_name jumpType key))
      else if (List.lookup func_name fakeFunctions).isSome then
        some (some (.funcCall func_name jumpType key))
      else none
    else if ¬fakeFunctions.isEmpty ∧ (List.lookup label fakeFunctions).isSome then
      some (some (.funcCall label jumpType key))
    else
      match List.lookup label labels with
      | some addr => some (some (encodeJump parts jumpType key (addr : Int)))
      | none =>
        match parse_number label with
        | some addr => some (some (encodeJump parts jumpType key addr))
        | none => none

/-- `parse_instruction` of the source.  The `call_stack_ptr` argument of the
source is never read and is omitted.  Returns `none` when the source raises,
`some none` when it returns `None` (blank line or `name:` line), and
`some (some p)` otherwise. -/
def parse_instruction (line : String) (labels : List (String × Nat))
    (functions : List (String × Option Nat)) (lineLabels : List (Nat × Nat))
    (fakeFunctions : List (String × List String)) : Option (Option PInstr) :=
  let l := normalizeLine line
  if strEmpty l ∨ strEnds l ":" then some none
  else if l = "HALT" then some (some (.conc haltInstr))
  else if l = "RETURN" then some (some .retMark)
  else if l = "NOP" then some (some (.conc nopInstr))
  else if l = "CLEARSCREEN" then some (some (.conc ⟨0, 0, 0, OP_CLEARSCREEN⟩))
  else if l = "REFRESHSCREEN" then some (some (.conc ⟨0, 0, 0, OP_REFRESHSCREEN⟩))
  else if strStarts l "RANDOM" then randomBranch l
  else if strStarts l "PUSH" then pushBranch l
  else if strStarts l "POP" then popBranch l
  else if strStarts l "SET" then setBranch l
  else if strStarts l "STORE" ∧ containsSub "INTO" l then storeBranch l
  else if strStarts l "LOAD" then loadBranch l
  else if strStarts l "DRAW" then drawBranch (splitWS l)
  else if strStarts l "JUMP" then jumpBranch l labels functions lineLabels fakeFunctions
  else
    match parseAluLine l with
    | some (some i) => some (some (.conc i))
    | some none => none
    | none =>
      if strStarts l "IF " then some (some (.ifStmt l))
      else if l = "ELSE" then some (some .elseMark)
      else if l = "END" then some (some .endMark)
      else none

/-! ## Call/return lowering helpers -/

/-- `generate_return_instructions`: a single `('LOAD_RETURN_ADDR', …)`
marker (which, note, is *not* one of the markers the final resolution pass
expands). -/
def generate_return_instructions : List PInstr :=
  [.loadRetMark]

/-- `generate_function_call_instructions`: only ever called (from
`expand_fake_function`) with the callee's *name* as `target_addr`, so the
`(target_addr + 1) & 0xFF` of the jump it builds is an uncaught `TypeError`
on `str + int`: the call always crashes the assembly. -/
def generate_function_call_instructions (_target_addr : String)
    (_jumpType : Option String) (_key : Nat)
    (_functions_with_return : List String) : Option (List PInstr) :=
  none

/-- `expand_fake_function`: parse and lower each body line of a fake
function.  A call to another fake function becomes a plain jump through the
label table (placeholder address 1 when the label is absent); a call to a
real function goes through `generate_function_call_instructions` (which
crashes); `RETURN` becomes `generate_return_instructions`. -/
def expand_fake_function (body : List String) (labels : List (String × Nat))
    (functions : List (String × Option Nat)) (lineLabels : List (Nat × Nat))
    (fakeFunctions : List (String × List String)) (fwr : List String) :
    Option (List PInstr) :=
  match body with
  | [] => some []
  | instruction :: rest =>
    match parse_instruction instruction labels functions lineLabels fakeFunctions with
    | none => none
    | some none => expand_fake_function rest labels functions lineLabels fakeFunctions fwr
    | some (some r) =>
      match r with
      | .funcCall name jt key =>
        if (List.lookup name fakeFunctions).isSome then
          let jtc := jumpTypeCode jt
          let instr : PInstr :=
            match List.lookup name labels with
            | some a => .conc ⟨key, jtc, (a + 1) % 256, OP_JUMP⟩
            | none => .conc ⟨key, jtc, 1, OP_JUMP⟩
          (expand_fake_function rest labels functions lineLabels fakeFunctions fwr).map
            (fun t => instr :: t)
        else
          match generate_function_call_instructions name jt key fwr with
          | none => none
          | some ins =>
            (expand_fake_function rest labels functions lineLabels fakeFunctions fwr).map
              (fun t => ins ++ t)
      | .retMark =>
        (expand_fake_function rest labels functions lineLabels fakeFunctions fwr).map
          (fun t => generate_return_instructions ++ t)
      | other =>
        (expand_fake_function rest labels functions lineLabels fakeFunctions fwr).map
          (fun t => other :: t)

/-! ## Structured conditionals -/

/-- The comparison operators, in the order `parse_if_condition` tries them. -/
def comparisonOps : List String := ["==", "!=", "<=", ">=", "<", ">"]

/-- Split at the first occurrence of the subsequence `needle`
(Python `s.split(op, 1)` guarded by `op in s`). -/
def splitFirstSeq (needle : List Char) : List Char → Option (List Char × List Char)
  | [] => if needle.isEmpty then some ([], []) else none
  | c :: cs =>
    if isPre needle (c :: cs) then some ([], (c :: cs).drop needle.length)
    else (splitFirstSeq needle cs).map (fun r => (c :: r.1, r.2))

/-- Worker of `parse_if_condition`: first operator (in table order) that
occurs in the condition splits it. -/
def findCondOp (cond : String) : List String → Option (String × String × String)
  | [] => none
  | op :: ops =>
    match splitFirstSeq op.toList cond.toList with
    | some (before, after) =>
      some ((⟨trimChars before⟩ : String), op, (⟨trimChars after⟩ : String))
    | none => findCondOp cond ops

/-- `parse_if_condition`. -/
def parse_if_condition (condition_str : String) : Option (String × String × String) :=
  findCondOp (strTrim condition_str) comparisonOps

/-- A `generate_if_instructions` branch jump:
`(0, jump_type_code, (addr + 1) & 0xFF, OPCODES['JUMP'])`. -/
def ifJmp (jt a : Nat) : PInstr :=
  .conc ⟨0, jt, (a + 1) % 256, OP_JUMP⟩

/-- Evaluation of a parsed `IF` condition `left op right`: parses the two
operands, rejects two RAM operands, and produces the emitted instruction
list together with the `then`/`else`/`end` synthetic-label addresses (these
are `none` only in the unreachable case of an operator outside the six,
where the source binds no labels).

The comparison instruction's `data1 = (right << 4) | left` is the source's
genuine bitwise or of two *untruncated* 8-bit values (overlapping bits are
possible, and the result can exceed 255). -/
def genIfCondEval (left_val op right_val : String)
    (then_instructions else_instructions : List PInstr)
    (instruction_address : Nat) :
    Option (List PInstr × Option (Nat × Nat × Nat)) :=
      match parse_value left_val, parse_value right_val with
      | some (left_type, left), some (right_type, right) =>
        if left_type == VT_RAM && right_type == VT_RAM then none
        else
          -- COMPARE into result register X (code 4); ALU_OPS['COMPARE'] = 11
          let reg1_nibble := if left_type == VT_REGISTER then left else left % 16
          let cmpInstr : PInstr :=
            .conc ⟨16 * reg1_nibble + 11 % 16,
                   64 * right_type + 16 * left_type + 4,
                   (right <<< 4) ||| left,
                   OP_ALU⟩
          let thenLen := then_instructions.length
          let elseLen := else_instructions.length
          let overElse : Nat := if else_instructions.isEmpty then 0 else 1
          let a := instruction_address
          if op = "==" then
            let then_addr := a + 3
            let else_addr := a + 3 + thenLen + overElse
            let end_addr := else_addr + elseLen
            some ([cmpInstr, ifJmp 1 then_addr, ifJmp 0 else_addr] ++ then_instructions
                  ++ (if else_instructions.isEmpty then [] else [ifJmp 0 end_addr])
                  ++ else_instructions,
                  some (then_addr, else_addr, end_addr))
          else if op = "!=" then
            let then_addr := a + 2
            let else_addr := a + 2 + thenLen + overElse
            let end_addr := else_addr + elseLen
            some ([cmpInstr, ifJmp 1 else_addr] ++ then_instructions
                  ++ (if else_instructions.isEmpty then [] else [ifJmp 0 end_addr])
                  ++ else_instructions,
                  some (then_addr, else_addr, end_addr))
          else if op = "<" then
            let then_addr := a + 3
            let else_addr := a + 3 + thenLen + overElse
            let end_addr := else_addr + elseLen
            some ([cmpInstr, ifJmp 2 then_addr, ifJmp 0 else_addr] ++ then_instructions
                  ++ (if else_instructions.isEmpty then [] else [ifJmp 0 end_addr])
                  ++ else_instructions,
                  some (then_addr, else_addr, end_addr))
          else if op = ">=" then
            let then_addr := a + 2
            let else_addr := a + 2 + thenLen + overElse
            let end_addr := else_addr + elseLen
            some ([cmpInstr, ifJmp 2 else_addr] ++ then_instructions
                  ++ (if else_instructions.isEmpty then [] else [ifJmp 0 end_addr])
                  ++ else_instructions,
                  some (then_addr, else_addr, end_addr))
          else if op = ">" then
            let then_addr := a + 3
            let else_addr := a + 3 + thenLen + overElse
            let end_addr := else_addr + elseLen
            some ([cmpInstr, ifJmp 1 else_addr, ifJmp 2 else_addr] ++ then_instructions
                  ++ (if else_instructions.isEmpty then [] else [ifJmp 0 end_addr])
                  ++ else_instructions,
                  some (then_addr, else_addr, end_addr))
          else if op = "<=" then
            let then_addr := a + 4
            let else_addr := a + 4 + thenLen + overElse
            let end_addr := else_addr + elseLen
            some ([cmpInstr, ifJmp 1 then_addr, ifJmp 2 then_addr, ifJmp 0 else_addr]
                  ++ then_instructions
                  ++ (if else_instructions.isEmpty then [] else [ifJmp 0 end_addr])
                  ++ else_instructions,
                  some (then_addr, else_addr, end_addr))
          else
            some ([cmpInstr] ++ else_instructions, none)
      | _, _ => none

/-- The id-independent core of `generate_if_instructions`: parse the `IF`
header and the condition, then evaluate it through `genIfCondEval`. -/
def genIfCore (if_line : String) (then_instructions else_instructions : List PInstr)
    (instruction_address : Nat) :
    Option (List PInstr × Option (Nat × Nat × Nat)) :=
  let if_parts := splitWS (strUpper if_line)
  if if_parts.length < 4 ∨ if_parts.getLastD "" ≠ "THEN" then none
  else
    let condition_part := joinSpace ((if_parts.drop 1).dropLast)
    match parse_if_condition condition_part with
    | none => none
    | some (left_val, op, right_val) =>
      genIfCondEval left_val op right_val then_instructions else_instructions
        instruction_address

/-- `generate_if_instructions`: the core expansion plus the mutation of the
label table with the wall-clock-unique synthetic labels
`_IF_THEN_<id>`/`_IF_ELSE_<id>`/`_IF_END_<id>` (bound in that order).
Returns the emitted instructions and the updated label table. -/
def generate_if_instructions (uniqueId : Nat) (if_line : String)
    (then_instructions else_instructions : List PInstr)
    (labels : List (String × Nat)) (instruction_address : Nat) :
    Option (List PInstr × List (String × Nat)) :=
  match genIfCore if_line then_instructions else_instructions instruction_address with
  | none => none
  | some (instrs, none) => some (instrs, labels)
  | some (instrs, some (then_addr, else_addr, end_addr)) =>
    let then_label := "_IF_THEN_" ++ natRepr uniqueId
    let else_label := "_IF_ELSE_" ++ natRepr uniqueId
    let end_label := "_IF_END_" ++ natRepr uniqueId
    some (instrs,
      (end_label, end_addr) :: (else_label, else_addr) :: (then_label, then_addr) :: labels)

/-! ## `count_instruction_increment`

The recursion through fake-function bodies is given explicit fuel; the
callers pass `fakeFunctions.length + 1`, which suffices for every acyclic
chain of fake-function calls (a longer chain revisits a fake function, i.e.
is cyclic, and the Python original then recurses forever — modelled as
`none`). -/

/-- `re.search(r'\[([^\]]+)\]', s)`: first bracketed non-empty group. -/
def searchBracketGroup : List Char → Option String
  | [] => none
  | '[' :: rest =>
    let inner := rest.takeWhile (fun c => c ≠ ']')
    if ¬inner.isEmpty ∧ (rest.drop inner.length).head? = some ']' then some ⟨inner⟩
    else searchBracketGroup rest
  | _ :: rest => searchBracketGroup rest

/-- Sum the per-line counts of a fake function's body under the given
(lower-fuel) counting function. -/
def sumIncrements (f : String → Option Nat) : List String → Option Nat
  | [] => some 0
  | instr :: rest =>
    match f instr, sumIncrements f rest with
    | some a, some b => some (a + b)
    | _, _ => none

/-- The bare-target `JUMP` arm of `count_instruction_increment` (`f` is the
counting function for the recursive fake-body sums). -/
def countJumpBare (f : String → Option Nat) (fakeFunctions : List (String × List String))
    (fwr : List String) (l : String) : Option Nat :=
  let parts := splitWS l
  if parts.length ≥ 2 then
    let target := parts.getD 1 ""
    match List.lookup target fakeFunctions with
    | some body => sumIncrements f body
    | none => if fwr.contains target then some 2 else some 1
  else some 1

/-- `count_instruction_increment`: machine instructions generated by one
source line (`RETURN` = 2, structured-conditional keywords = 0, calls by
fake/real/with-return status, everything else 1).  Structural recursion on
the fuel, which bounds the fake-call nesting depth. -/
def count_instruction_increment (fakeFunctions : List (String × List String))
    (fwr : List String) : Nat → String → Option Nat
  | 0 => fun _ => none
  | fuel + 1 =>
    fun line =>
      let f := count_instruction_increment fakeFunctions fwr fuel
      let l := strUpper (strTrim line)
      if l = "RETURN" then some 2
      else if strStarts l "IF " ∨ l = "ELSE" ∨ l = "END" then some 0
      else if strStarts l "JUMP" ∧ containsChar '[' l ∧ containsChar ']' l then
        match searchBracketGroup l.toList with
        | some func_name =>
          match List.lookup func_name fakeFunctions with
          | some body => sumIncrements f body
          | none => if fwr.contains func_name then some 2 else some 1
        | none =>
          -- no bracketed group: fall through to the bare-target `JUMP` branch
          countJumpBare f fakeFunctions fwr l
      else if strStarts l "JUMP" then countJumpBare f fakeFunctions fwr l
      else some 1

/-! ## `first_pass` -/

/-- Add a (real) function placeholder, keeping dict insertion order. -/
def addFunc (fs : List (String × Option Nat)) (name : String) :
    List (String × Option Nat) :=
  if (List.lookup name fs).isSome then fs else fs ++ [(name, none)]

/-- `dict` assignment for the fake-function table (name → start line). -/
def addFake (fs : List (String × Nat)) (name : String) (i : Nat) :
    List (String × Nat) :=
  if (List.lookup name fs).isSome then
    fs.map (fun p => if p.1 = name then (name, i) else p)
  else fs ++ [(name, i)]

/-- Add to `functions_with_return` (a set). -/
def addFwr (l : List String) (n : String) : List String :=
  if l.contains n then l else l ++ [n]

/-- The lookahead window of the function heuristic:
`range(i + 1, min(i + 20, len(lines)))`. -/
def lookAheadWindow (lines : List String) (i : Nat) : List String :=
  (lines.drop (i + 1)).take (min (i + 20) lines.length - (i + 1))

/-- The heuristic body scan: `(is_function, has_return)`.  An explicit
`RETURN` makes it a function with return; an unconditional `JUMP` (no ` IF `
and no `ZERO`/`CARRY`/`KEY` third token) makes it a function; another label
stops the scan. -/
def heurScan : List String → Bool × Bool
  | [] => (false, false)
  | l :: rest =>
    let next_line := cleanLine l
    if strEmpty next_line then heurScan rest
    else if strUpper next_line = "RETURN" then (true, true)
    else
      let up := strUpper next_line
      let parts := splitWS up
      if strStarts up "JUMP " ∧ ¬containsSub " IF " up ∧
          (parts.length = 2 ∨ (parts.length > 2 ∧
            parts.getD 2 "" ≠ "ZERO" ∧ parts.getD 2 "" ≠ "CARRY" ∧
            parts.getD 2 "" ≠ "KEY")) then
        (true, false)
      else if containsChar ':' next_line then (false, false)
      else heurScan rest

/-- The conventional function-name suffix patterns of the heuristic. -/
def namePatternFunc (name : String) : Bool :=
  containsSub "FUNC" name || containsSub "SUB" name ||
  containsSub "PROC" name || containsSub "ROUTINE" name

/-- State of the first `first_pass` loop. -/
structure FPState where
  functions : List (String × Option Nat)
  fakes : List (String × Nat)
  fwr : List String

/-- The function/fake identification loop of `first_pass`. -/
def firstPassGo (lines : List String) : Nat → List String → FPState → FPState
  | _, [], st => st
  | i, line :: rest, st =>
    let clean := cleanLine line
    if strEmpty clean then firstPassGo lines (i + 1) rest st
    else if containsChar ':' clean then
      let label_part := strTrim (beforeFirst ':' clean)
      let rest_of_line := strUpper (strTrim (afterFirst ':' clean))
      if strStarts label_part "[" ∧ strEnds label_part "]" then
        let func_name := strUpper (strDropRight (strDrop label_part 1) 1)
        if rest_of_line = "FAKE" then
          firstPassGo lines (i + 1) rest { st with fakes := addFake st.fakes func_name i }
        else
          firstPassGo lines (i + 1) rest { st with functions := addFunc st.functions func_name }
      else if rest_of_line = "FAKE" then
        firstPassGo lines (i + 1) rest
          { st with fakes := addFake st.fakes (strUpper label_part) i }
      else
        let func_name := strUpper label_part
        let (isf0, has_return) := heurScan (lookAheadWindow lines i)
        let is_function := isf0 || namePatternFunc func_name
        if is_function then
          firstPassGo lines (i + 1) rest
            { st with functions := addFunc st.functions func_name,
                      fwr := if has_return then addFwr st.fwr func_name else st.fwr }
        else firstPassGo lines (i + 1) rest st
    else firstPassGo lines (i + 1) rest st

/-- Collect a fake function's body: cleaned non-blank lines from after its
header until the next line containing `:`; also reports whether the body
contains a `RETURN`. -/
def fakeBodyFrom : List String → List String × Bool
  | [] => ([], false)
  | line :: rest =>
    let l := cleanLine line
    if strEmpty l then fakeBodyFrom rest
    else if containsChar ':' l then ([], false)
    else
      let r := fakeBodyFrom rest
      (l :: r.1, r.2 || (strUpper l = "RETURN"))

/-- `first_pass`: `(functions, fake_functions, functions_with_return)`. -/
def first_pass (lines : List String) :
    List (String × Option Nat) × List (String × List String) × List String :=
  let st := firstPassGo lines 0 lines ⟨[], [], []⟩
  let fakes := st.fakes.map (fun p => (p.1, (fakeBodyFrom (lines.drop (p.2 + 1))).1))
  let fwr := st.fakes.foldl
    (fun acc p => if (fakeBodyFrom (lines.drop (p.2 + 1))).2 then addFwr acc p.1 else acc)
    st.fwr
  (st.functions, fakes, fwr)

/-! ## Separating main program and function bodies (`function_lines`) -/

/-- `function_lines[name] = []` (dict assignment, keeping position). -/
def setEntry (fl : List (String × List String)) (name : String) :
    List (String × List String) :=
  if (List.lookup name fl).isSome then
    fl.map (fun p => if p.1 = name then (name, []) else p)
  else fl ++ [(name, [])]

/-- `function_lines[name].append(line)`. -/
def appendEntry (fl : List (String × List String)) (name : String) (line : String) :
    List (String × List String) :=
  fl.map (fun p => if p.1 = name then (p.1, p.2 ++ [line]) else p)

/-- The main/function line-splitting loop of `assemble` (only the
`function_lines` result is ever used; `main_lines` is built but dead). -/
def splitSectionsGo (functions : List (String × Option Nat))
    (fakes : List (String × List String)) :
    Option String → List (String × List String) → List String →
    List (String × List String)
  | _, fl, [] => fl
  | cur, fl, line :: rest =>
    let clean := cleanLine line
    if strEmpty clean then splitSectionsGo functions fakes cur fl rest
    else if containsChar ':' clean then
      let label_part := strTrim (beforeFirst ':' clean)
      if strStarts label_part "[" ∧ strEnds label_part "]" then
        let func_name := strUpper (strDropRight (strDrop label_part 1) 1)
        if (List.lookup func_name fakes).isSome then
          splitSectionsGo functions fakes none fl rest
        else splitSectionsGo functions fakes (some func_name) (setEntry fl func_name) rest
      else
        let rest_of_line := strUpper (strTrim (afterFirst ':' clean))
        if rest_of_line = "FAKE" then splitSectionsGo functions fakes none fl rest
        else
          let func_name := strUpper label_part
          if (List.lookup func_name functions).isSome then
            splitSectionsGo functions fakes (some func_name) (setEntry fl func_name) rest
          else
            -- regular label: current_function = None (the line itself goes
            -- to the unused main_lines)
            splitSectionsGo functions fakes none fl rest
    else
      match cur with
      | some f => splitSectionsGo functions fakes cur (appendEntry fl f line) rest
      | none => splitSectionsGo functions fakes cur fl rest

/-- `function_lines` of `assemble`. -/
def splitSections (functions : List (String × Option Nat))
    (fakes : List (String × List String)) (lines : List String) :
    List (String × List String) :=
  splitSectionsGo functions fakes none [] lines

/-! ## The line-alias / label pass (first pass of `assemble`) -/

/-- Whether source line content `clean` receives its `L<n>` alias: blank and
`…: fake` lines always do; other lines do unless they are a pure label
definition (a `:` with nothing after it). -/
def aliasBindCond (clean : String) : Bool :=
  if ¬strEmpty clean ∧ ¬strEnds clean ": fake" then
    (¬containsChar ':' clean) || ¬strEmpty (strTrim (afterFirst ':' clean))
  else true

/-- One pass over the indexed lines maintaining the running instruction
address `temp` (seeded at 2 for the two warm-up `NOP`s), the label table,
and the `L<n>` table.  Label-definition lines bind the (bracket-stripped,
upper-cased) name to the current address and do not advance it; the dead
lookahead loop of the source never changes `next_instruction_addr`, so the
bound value is exactly `temp`. -/
def aliasStep (fakes : List (String × List String)) (fwr : List String)
    (i temp : Nat) (labels : List (String × Nat)) (lls : List (Nat × Nat))
    (line : String) : Option (Nat × List (String × Nat) × List (Nat × Nat)) :=
  let clean := cleanLine line
  let lls' := if aliasBindCond clean then (i + 1, temp) :: lls else lls
  if ¬strEmpty clean ∧ ¬strEnds clean ": fake" then
    if containsChar ':' clean then
      let rest_of_line := strUpper (strTrim (afterFirst ':' clean))
      if rest_of_line = "FAKE" then some (temp, labels, lls')
      else
        let label_part := strTrim (beforeFirst ':' clean)
        let name :=
          if strStarts label_part "[" ∧ strEnds label_part "]" then
            strUpper (strDropRight (strDrop label_part 1) 1)
          else strUpper label_part
        some (temp, (name, temp) :: labels, lls')
    else
      match count_instruction_increment fakes fwr (fakes.length + 1) clean with
      | none => none
      | some inc => some (temp + inc, labels, lls')
  else some (temp, labels, lls')

/-- The pass itself: fold `aliasStep` over the (indexed) lines. -/
def aliasLoop (fakes : List (String × List String)) (fwr : List String) :
    Nat → Nat → List (String × Nat) → List (Nat × Nat) → List String →
    Option (Nat × List (String × Nat) × List (Nat × Nat))
  | _, temp, labels, lls, [] => some (temp, labels, lls)
  | i, temp, labels, lls, line :: rest =>
    match aliasStep fakes fwr i temp labels lls line with
    | none => none
    | some r => aliasLoop fakes fwr (i + 1) r.1 r.2.1 r.2.2 rest

/-- The whole line-alias / label pass: `(final counter, labels, line_labels)`. -/
def aliasPass (fakes : List (String × List String)) (fwr : List String)
    (lines : List String) : Option (Nat × List (String × Nat) × List (Nat × Nat)) :=
  aliasLoop fakes fwr 0 2 [] [] lines

/-! ## The main emission loop of `assemble` -/

/-- State threaded through the second (emission) pass over the main program:
the emitted entries, the running instruction address, the (mutable) label
table, and the remaining supply of wall-clock ids for `IF` expansions. -/
structure MainState where
  instrs : List PInstr
  addr : Nat
  labels : List (String × Nat)
  ids : List Nat
deriving Repr

/-- Collect the body of an `IF` block: cleaned non-blank lines go to the
`then` (or, after the matching `ELSE`, the `else`) list, tracking nesting;
returns the two blocks and the lines after the matching `END`.  `none` when
no matching `END` exists. -/
def collectIfBlock (thenAcc elseAcc : List String) (inElse : Bool) (nest : Nat) :
    List String → Option (List String × List String × List String)
  | [] => none
  | line :: rest =>
    let bl := cleanLine line
    if strEmpty bl then collectIfBlock thenAcc elseAcc inElse nest rest
    else
      let bu := strUpper bl
      let pushed : List String × List String :=
        if inElse then (thenAcc, elseAcc ++ [bl]) else (thenAcc ++ [bl], elseAcc)
      if strStarts bu "IF " then
        collectIfBlock pushed.1 pushed.2 inElse (nest + 1) rest
      else if bu = "END" then
        if nest = 0 then some (thenAcc, elseAcc, rest)
        else collectIfBlock pushed.1 pushed.2 inElse (nest - 1) rest
      else if bu = "ELSE" ∧ nest = 0 then
        collectIfBlock thenAcc elseAcc true nest rest
      else collectIfBlock pushed.1 pushed.2 inElse nest rest

/-- Parse the collected lines of a `then`/`else` block, keeping the non-`None`
results (`none` on the first parse error, which exits the assembly). -/
def parseBlock (labels : List (String × Nat)) (functions : List (String × Option Nat))
    (lineLabels : List (Nat × Nat)) (fakes : List (String × List String)) :
    List String → Option (List PInstr)
  | [] => some []
  | instr :: rest =>
    match parse_instruction instr labels functions lineLabels fakes with
    | none => none
    | some none => parseBlock labels functions lineLabels fakes rest
    | some (some r) =>
      (parseBlock labels functions lineLabels fakes rest).map (fun t => r :: t)

/-- Lowering of a call to a real function at the main-program level:
a `STORE_RETURN_ADDR` marker (worth 2 final instructions) when the callee is
in `functions_with_return`, then a jump holding the callee's name. -/
def lowerRealCall (fwr : List String) (name : String) (jumpType : Option String)
    (key addr : Nat) : List PInstr :=
  let jtc := jumpTypeCode jumpType
  if fwr.contains name then [.storeRet addr, .jumpName key jtc name]
  else [.jumpName key jtc name]

/-- The address increment that `assemble` applies for `lowerRealCall`
(2 for the store marker plus 1 for the jump when the callee has a return). -/
def lowerRealCallInc (fwr : List String) (name : String) : Nat :=
  if fwr.contains name then 3 else 1

/-- The second (emission) pass over the main program: walks all source lines
until a function definition, expanding `IF` blocks, fake-function calls,
and real calls.  The fuel argument only bounds the iteration count (each
step consumes at least one line, so `lines.length + 1` is always enough). -/
def mainLoop (functions : List (String × Option Nat))
    (fakes : List (String × List String)) (fwr : List String)
    (lineLabels : List (Nat × Nat)) :
    Nat → MainState → List String → Option MainState
  | 0, _, _ => none
  | _, st, [] => some st
  | fuel + 1, st, line :: rest =>
    let clean := cleanLine line
    if strEmpty clean then mainLoop functions fakes fwr lineLabels fuel st rest
    else if containsChar ':' clean then
      let label_part := strTrim (beforeFirst ':' clean)
      let rest_of_line := strUpper (strTrim (afterFirst ':' clean))
      if rest_of_line = "FAKE" then mainLoop functions fakes fwr lineLabels fuel st rest
      else if (strStarts label_part "[" ∧ strEnds label_part "]" ∧
               (List.lookup (strUpper (strDropRight (strDrop label_part 1) 1)) functions).isSome) ∨
              (List.lookup (strUpper label_part) functions).isSome then
        -- a real function definition: stop processing the main program
        some st
      else mainLoop functions fakes fwr lineLabels fuel st rest
    else if strStarts (strUpper clean) "IF " then
      match collectIfBlock [] [] false 0 rest with
      | none => none
      | some (thenLines, elseLines, rest') =>
        match parseBlock st.labels functions lineLabels fakes thenLines,
              parseBlock st.labels functions lineLabels fakes elseLines with
        | some parsed_then, some parsed_else =>
          match generate_if_instructions (st.ids.headD 0) clean parsed_then parsed_else
              st.labels st.addr with
          | none => none
          | some (if_instrs, labels') =>
            mainLoop functions fakes fwr lineLabels fuel
              { instrs := st.instrs ++ if_instrs, addr := st.addr + if_instrs.length,
                labels := labels', ids := st.ids.tail } rest'
        | _, _ => none
    else
      match parse_instruction line st.labels functions lineLabels fakes with
      | none => none
      | some none => mainLoop functions fakes fwr lineLabels fuel st rest
      | some (some r) =>
        match r with
        | .funcCall name jt key =>
          match List.lookup name fakes with
          | some body =>
            let labels' := (name, st.addr) :: st.labels
            match expand_fake_function body labels' functions lineLabels fakes fwr with
            | none => none
            | some expanded =>
              mainLoop functions fakes fwr lineLabels fuel
                { instrs := st.instrs ++ expanded, addr := st.addr + expanded.length,
                  labels := labels', ids := st.ids } rest
          | none =>
            mainLoop functions fakes fwr lineLabels fuel
              { st with instrs := st.instrs ++ lowerRealCall fwr name jt key st.addr,
                        addr := st.addr + lowerRealCallInc fwr name } rest
        | .ifStmt _ =>
          mainLoop functions fakes fwr lineLabels fuel st rest
        | .elseMark =>
          mainLoop functions fakes fwr lineLabels fuel st rest
        | .endMark =>
          mainLoop functions fakes fwr lineLabels fuel st rest
        | .retMark =>
          mainLoop functions fakes fwr lineLabels fuel
            { st with instrs := st.instrs ++ [.retMark], addr := st.addr + 2 } rest
        | other =>
          mainLoop functions fakes fwr lineLabels fuel
            { st with instrs := st.instrs ++ [other], addr := st.addr + 1 } rest

/-! ## Layout and final resolution -/

/-- `main_instrs[-1][3] == OPCODES['HALT']` (marker tuples never compare
equal to the numeric opcode). -/
def lastEntryIsHalt (l : List PInstr) : Bool :=
  match l.getLast? with
  | some (.conc i) => i.opcode == OP_HALT
  | _ => false

/-- Append a `HALT` when the main program does not already end in one. -/
def ensureHalt (main_instrs : List PInstr) : List PInstr :=
  if main_instrs.isEmpty || ¬lastEntryIsHalt main_instrs then
    main_instrs ++ [.conc haltInstr]
  else main_instrs

/-- `functions[f] = labels[f]` for every function name present in the label
table. -/
def resolveFuncs (functions : List (String × Option Nat))
    (labels : List (String × Nat)) : List (String × Option Nat) :=
  functions.map (fun p =>
    match List.lookup p.1 labels with
    | some a => (p.1, some a)
    | none => p)

/-- Rewrite jumps whose `data1` still holds a function name to the resolved
address, with the `+1` hardware fix-up (`(functions[name] + 1) & 0xFF`);
unresolved names are left in place. -/
def resolveNames (functions : List (String × Option Nat)) :
    List PInstr → List PInstr :=
  List.map (fun instr =>
    match instr with
    | .jumpName key jt name =>
      match List.lookup name functions with
      | some (some a) => .conc ⟨key, jt, (a + 1) % 256, OP_JUMP⟩
      | _ => instr
    | _ => instr)

/-- Emission of one real function body; `fia` is the shared
`function_instruction_address` counter, `acc` the shared `function_instrs`. -/
def funcBodyLoop (labels : List (String × Nat)) (functions : List (String × Option Nat))
    (lineLabels : List (Nat × Nat)) (fakes : List (String × List String))
    (fwr : List String) : Nat → List PInstr → List String → Option (Nat × List PInstr)
  | fia, acc, [] => some (fia, acc)
  | fia, acc, line :: rest =>
    match parse_instruction line labels functions lineLabels fakes with
    | none => none
    | some none => funcBodyLoop labels functions lineLabels fakes fwr fia acc rest
    | some (some r) =>
      match r with
      | .retMark =>
        funcBodyLoop labels functions lineLabels fakes fwr (fia + 2) (acc ++ [.retMark]) rest
      | .funcCall name jt key =>
        match List.lookup name fakes with
        | some body =>
          match expand_fake_function body labels functions lineLabels fakes fwr with
          | none => none
          | some expanded =>
            funcBodyLoop labels functions lineLabels fakes fwr
              (fia + expanded.length) (acc ++ expanded) rest
        | none =>
          let jtc := jumpTypeCode jt
          let withStore : Nat × List PInstr :=
            if fwr.contains name then (fia + 2, acc ++ [.storeRet fia]) else (fia, acc)
          let jmpEntry : PInstr :=
            match List.lookup name functions with
            | some (some a) => .conc ⟨key, jtc, (a + 1) % 256, OP_JUMP⟩
            | _ => .jumpName key jtc name
          funcBodyLoop labels functions lineLabels fakes fwr
            (withStore.1 + 1) (withStore.2 ++ [jmpEntry]) rest
      | other =>
        funcBodyLoop labels functions lineLabels fakes fwr (fia + 1) (acc ++ [other]) rest

/-- Emission of all real function bodies, in `function_lines` order, skipping
names that are fake functions. -/
def functionEmit (labels : List (String × Nat)) (functions : List (String × Option Nat))
    (lineLabels : List (Nat × Nat)) (fakes : List (String × List String))
    (fwr : List String) : Nat → List PInstr → List (String × List String) →
    Option (List PInstr)
  | _, acc, [] => some acc
  | fia, acc, (fname, flines) :: rest =>
    if (List.lookup fname fakes).isSome then
      functionEmit labels functions lineLabels fakes fwr fia acc rest
    else
      match funcBodyLoop labels functions lineLabels fakes fwr fia acc flines with
      | none => none
      | some (fia', acc') => functionEmit labels functions lineLabels fakes fwr fia' acc' rest

/-- The final resolution pass over `all_instrs`: a `STORE_RETURN_ADDR`
marker becomes `SET D, (len(resolved) + 2) & 0xFF` followed by a push of
`D` onto the `RETURN` stack; a `RETURN` marker becomes a pop from the
`RETURN` stack into `D` followed by an indirect `JUMP D`
(`data3 = (1 << 4) | 0`, `data2 = (D << 4) | 0`).  Every other entry whose
`[3]` field is `'SPECIAL'` (`LOAD_RETURN_ADDR` and stray
`IF_STATEMENT`/`ELSE`/`END` markers) is silently dropped; anything else is
kept as-is. -/
def expandSpecials : List PInstr → List PInstr → List PInstr
  | acc, [] => acc
  | acc, instr :: rest =>
    match instr with
    | .storeRet _ =>
      let return_addr := acc.length + 2
      expandSpecials
        (acc ++ [.conc ⟨0, 3, return_addr % 256, OP_SET⟩,
                 .conc ⟨4 * STKOP_PUSH + STK_RETURN, 3, 0, OP_STACK⟩]) rest
    | .retMark =>
      expandSpecials
        (acc ++ [.conc ⟨4 * STKOP_POP + STK_RETURN, 3, 0, OP_STACK⟩,
                 .conc ⟨16 * 1 + 0, 16 * 3 + 0, 0, OP_JUMP⟩]) rest
    | .loadRetMark => expandSpecials acc rest
    | .ifStmt _ => expandSpecials acc rest
    | .elseMark => expandSpecials acc rest
    | .endMark => expandSpecials acc rest
    | other => expandSpecials (acc ++ [other]) rest

/-- Pad with `NOP`s to 256 entries (no truncation and no overflow check:
longer streams are left as they are). -/
def padNops (l : List PInstr) : List PInstr :=
  l ++ List.replicate (256 - l.length) (.conc nopInstr)

/-- The ROM formatting loop's validation: every entry must be a concrete
4-tuple with all fields in `0‥255` (a marker or string-valued field at this
point is a fatal error). -/
def romCheck : List PInstr → Option (List Instr)
  | [] => some []
  | .conc i :: rest =>
    if i.data3 ≤ 255 ∧ i.data2 ≤ 255 ∧ i.data1 ≤ 255 ∧ i.opcode ≤ 255 then
      (romCheck rest).map (fun t => i :: t)
    else none
  | _ :: _ => none

/-- `assemble`: the full pipeline from source lines (and the wall-clock id
supply for `IF` expansions) to the padded, validated instruction image. -/
def assemble (lines : List String) (ids : List Nat) : Option (List Instr) :=
  let fp := first_pass lines
  let functions := fp.1
  let fake_functions := fp.2.1
  let functions_with_return := fp.2.2
  let function_lines := splitSections functions fake_functions lines
  match aliasPass fake_functions functions_with_return lines with
  | none => none
  | some (_, labels, line_labels) =>
    match mainLoop functions fake_functions functions_with_return line_labels
        (lines.length + 1) ⟨[.conc nopInstr, .conc nopInstr], 2, labels, ids⟩ lines with
    | none => none
    | some st =>
      let main_instrs := ensureHalt st.instrs
      let functions1 := resolveFuncs functions st.labels
      let main_instrs1 := resolveNames functions1 main_instrs
      match functionEmit st.labels functions1 line_labels fake_functions
          functions_with_return main_instrs.length [] function_lines with
      | none => none
      | some function_instrs =>
        let function_instrs1 := resolveNames functions1 function_instrs
        let resolved := expandSpecials [] (main_instrs1 ++ function_instrs1)
        romCheck (padNops resolved)

/-- ROM1 words: `data1 << 8 | opcode` per instruction slot. -/
def rom1Words (img : List Instr) : List Nat :=
  img.map (fun i => i.data1 * 256 + i.opcode)

/-- ROM2 words: `data3 << 8 | data2` per instruction slot. -/
def rom2Words (img : List Instr) : List Nat :=
  img.map (fun i => i.data3 * 256 + i.data2)


/-! ## Concrete program fragments used in runs of the model -/

/-- The instruction emitted for `SET A TO 1`. -/
def setATo1 : PInstr := .conc ⟨0, 0, 1, OP_SET⟩

/-- The instruction emitted for `SET A TO 2`. -/
def setATo2 : PInstr := .conc ⟨0, 0, 2, OP_SET⟩

/-- A program whose single call site targets a real function containing
`RETURN`. -/
def C2C3prog : List String := ["JUMP MYFUNC", "HALT", "MYFUNC:", "RETURN"]

/-- A program that jumps to a label colliding with a synthetic `IF` label. -/
def C9prog : List String :=
  ["_IF_THEN_42:", "NOP", "IF A == 0 THEN", "NOP", "END", "JUMP _IF_THEN_42 IF ZERO", "HALT"]

/-- The `temp_instruction_count` in effect when the alias pass reaches line
`n` (0-based): the counter after the pass has consumed the first `n` lines. -/
def aliasCounterBefore (fakes : List (String × List String)) (fwr : List String)
    (lines : List String) (n : Nat) : Nat :=
  match aliasPass fakes fwr (lines.take n) with
  | some r => r.1
  | none => 0

/-! ## Helper lemmas -/

theorem expandSpecials_extends : ∀ (l acc : List PInstr), acc <+: expandSpecials acc l := by
  intro l
  induction l with
  | nil => intro acc; simp [expandSpecials]
  | cons p rest ih =>
    intro acc
    cases p <;> simp only [expandSpecials] <;>
      first
        | exact (List.prefix_append _ _).trans (ih _)
        | exact ih _

theorem ensureHalt_append : ∀ l : List PInstr, ∃ t, ensureHalt l = l ++ t := by
  intro l
  unfold ensureHalt
  split
  · exact ⟨_, rfl⟩
  · exact ⟨[], (List.append_nil _).symm⟩

theorem padNops_length : ∀ l : List PInstr, (padNops l).length = max 256 l.length := by
  intro l; simp [padNops]; omega

theorem mainLoop_instrs_extend (functions : List (String × Option Nat))
    (fakes : List (String × List String)) (fwr : List String)
    (lineLabels : List (Nat × Nat)) :
    ∀ (fuel : Nat) (ls : List String) (st st' : MainState),
      mainLoop functions fakes fwr lineLabels fuel st ls = some st' →
      st.instrs <+: st'.instrs := by
  intro fuel
  induction fuel with
  | zero => intro ls st st' h; simp [mainLoop] at h
  | succ n ih =>
    intro ls st st' h
    cases ls with
    | nil =>
      simp only [mainLoop] at h
      cases h
      exact List.prefix_rfl
    | cons line rest =>
      simp only [mainLoop] at h
      repeat' split at h
      all_goals first
        | exact Option.noConfusion h
        | (cases h; exact List.prefix_rfl)
        | exact ih _ _ _ h
        | exact (List.prefix_append _ _).trans (ih _ _ _ h)

theorem resolveNames_append (f : List (String × Option Nat)) (a b : List PInstr) :
    resolveNames f (a ++ b) = resolveNames f a ++ resolveNames f b := by
  simp [resolveNames]

theorem romCheck_cons_nop (l : List PInstr) (out : List Instr)
    (h : romCheck (.conc nopInstr :: l) = some out) :
    ∃ w, romCheck l = some w ∧ out = nopInstr :: w := by
  simp only [romCheck, nopInstr] at h
  rw [if_pos (by norm_num [OP_NOP])] at h
  obtain ⟨w, hw, rfl⟩ := Option.map_eq_some'.mp h
  exact ⟨w, hw, rfl⟩

theorem finalStage_take2 (z : List PInstr) (out : List Instr)
    (h : romCheck (padNops (expandSpecials [] (.conc nopInstr :: .conc nopInstr :: z))) = some out) :
    out.take 2 = [nopInstr, nopInstr] := by
  obtain ⟨t3, ht3⟩ := expandSpecials_extends z [.conc nopInstr, .conc nopInstr]
  have hstep : expandSpecials [] (PInstr.conc nopInstr :: PInstr.conc nopInstr :: z) =
      expandSpecials [.conc nopInstr, .conc nopInstr] z := rfl
  rw [hstep, ← ht3] at h
  obtain ⟨w1, hw1, rfl⟩ := romCheck_cons_nop _ _ h
  obtain ⟨w2, _, rfl⟩ := romCheck_cons_nop _ _ hw1
  rfl

theorem assemble_starts_nop_nop (lines : List String) (ids : List Nat) (out : List Instr)
    (h : assemble lines ids = some out) : out.take 2 = [nopInstr, nopInstr] := by
  simp only [assemble] at h
  split at h
  · exact Option.noConfusion h
  split at h
  · exact Option.noConfusion h
  rename_i st heqM
  split at h
  · exact Option.noConfusion h
  obtain ⟨r1, hr1⟩ := mainLoop_instrs_extend _ _ _ _ _ _ _ _ heqM
  obtain ⟨t2, ht2⟩ := ensureHalt_append st.instrs
  have hshape : ensureHalt st.instrs =
      PInstr.conc nopInstr :: PInstr.conc nopInstr :: (r1 ++ t2) := by
    rw [ht2, ← hr1]; simp
  rw [hshape] at h
  exact finalStage_take2 _ _ h

theorem lastEntryIsHalt_ensureHalt : ∀ l : List PInstr, lastEntryIsHalt (ensureHalt l) = true := by
  intro l
  rw [ensureHalt]
  split
  · simp [lastEntryIsHalt, List.getLast?_concat, haltInstr]
  · rename_i hcond
    simp at hcond
    simp_all

theorem lookup_REGISTERS_none_of_bracket (t : String) (h : strStarts t "[" = true) :
    List.lookup t REGISTERS = none := by
  have h1 : (t == "A") = false := beq_eq_false_iff_ne.mpr (by rintro rfl; exact absurd h (by decide))
  have h2 : (t == "B") = false := beq_eq_false_iff_ne.mpr (by rintro rfl; exact absurd h (by decide))
  have h3 : (t == "C") = false := beq_eq_false_iff_ne.mpr (by rintro rfl; exact absurd h (by decide))
  have h4 : (t == "D") = false := beq_eq_false_iff_ne.mpr (by rintro rfl; exact absurd h (by decide))
  have h5 : (t == "X") = false := beq_eq_false_iff_ne.mpr (by rintro rfl; exact absurd h (by decide))
  have h6 : (t == "Y") = false := beq_eq_false_iff_ne.mpr (by rintro rfl; exact absurd h (by decide))
  simp [REGISTERS, List.lookup, h1, h2, h3, h4, h5, h6]

theorem aliasStep_lls (fakes : List (String × List String)) (fwr : List String)
    (i temp : Nat) (labels : List (String × Nat)) (lls : List (Nat × Nat))
    (line : String) (r : Nat × List (String × Nat) × List (Nat × Nat))
    (h : aliasStep fakes fwr i temp labels lls line = some r) :
    r.2.2 = if aliasBindCond (cleanLine line) then (i + 1, temp) :: lls else lls := by
  simp only [aliasStep] at h
  repeat' split at h
  all_goals first
    | exact Option.noConfusion h
    | (cases h; simp_all)

theorem aliasLoop_append (fakes : List (String × List String)) (fwr : List String) :
    ∀ (l1 l2 : List String) (i t : Nat) (lab : List (String × Nat)) (ll : List (Nat × Nat)),
      aliasLoop fakes fwr i t lab ll (l1 ++ l2) =
        match aliasLoop fakes fwr i t lab ll l1 with
        | none => none
        | some r => aliasLoop fakes fwr (i + l1.length) r.1 r.2.1 r.2.2 l2 := by
  intro l1
  induction l1 with
  | nil => intro l2 i t lab ll; simp [aliasLoop]
  | cons line rest ih =>
    intro l2 i t lab ll
    simp only [List.cons_append, aliasLoop]
    cases hs : aliasStep fakes fwr i t lab ll line with
    | none => rfl
    | some r =>
      show aliasLoop fakes fwr (i + 1) r.1 r.2.1 r.2.2 (rest ++ l2) =
        match aliasLoop fakes fwr (i + 1) r.1 r.2.1 r.2.2 rest with
        | none => none
        | some r => aliasLoop fakes fwr (i + (line :: rest).length) r.1 r.2.1 r.2.2 l2
      rw [ih]
      have : i + (line :: rest).length = (i + 1) + rest.length := by simp; omega
      rw [this]

theorem aliasLoop_lookup_high (fakes : List (String × List String)) (fwr : List String) :
    ∀ (ls : List String) (i t : Nat) lab (ll : List (Nat × Nat)) r (m : Nat),
      aliasLoop fakes fwr i t lab ll ls = some r →
      i + ls.length < m → List.lookup m ll = none →
      List.lookup m r.2.2 = none := by
  intro ls
  induction ls with
  | nil =>
    intro i t lab ll r m h hm hll
    simp only [aliasLoop] at h
    cases h
    exact hll
  | cons line rest ih =>
    intro i t lab ll r m h hm hll
    simp only [aliasLoop] at h
    cases hs : aliasStep fakes fwr i t lab ll line with
    | none => rw [hs] at h; exact Option.noConfusion h
    | some r1 =>
      rw [hs] at h
      apply ih _ _ _ _ _ _ h (by simp at hm; omega)
      rw [aliasStep_lls _ _ _ _ _ _ _ _ hs]
      split
      · have hne : (m == i + 1) = false := by
          simp only [beq_eq_false_iff_ne]; simp at hm; omega
        simp [List.lookup, hne, hll]
      · exact hll

theorem aliasLoop_lookup_low (fakes : List (String × List String)) (fwr : List String) :
    ∀ (ls : List String) (i t : Nat) lab (ll : List (Nat × Nat)) r (k : Nat),
      aliasLoop fakes fwr i t lab ll ls = some r →
      k ≤ i → List.lookup k r.2.2 = List.lookup k ll := by
  intro ls
  induction ls with
  | nil =>
    intro i t lab ll r k h hk
    simp only [aliasLoop] at h
    cases h
    rfl
  | cons line rest ih =>
    intro i t lab ll r k h hk
    simp only [aliasLoop] at h
    cases hs : aliasStep fakes fwr i t lab ll line with
    | none => rw [hs] at h; exact Option.noConfusion h
    | some r1 =>
      rw [hs] at h
      rw [ih _ _ _ _ _ _ h (by omega)]
      rw [aliasStep_lls _ _ _ _ _ _ _ _ hs]
      split
      · have hne : (k == i + 1) = false := by
          simp only [beq_eq_false_iff_ne]; omega
        simp [List.lookup, hne]
      · rfl

theorem aliasLoop_lookup_line1 (fakes : List (String × List String)) (fwr : List String)
    (line : String) (rest : List String) (i t : Nat) (lab : List (String × Nat))
    (ll : List (Nat × Nat)) (r : Nat × List (String × Nat) × List (Nat × Nat))
    (hinv : ∀ m, i < m → List.lookup m ll = none)
    (h : aliasLoop fakes fwr i t lab ll (line :: rest) = some r) :
    List.lookup (i + 1) r.2.2 = if aliasBindCond (cleanLine line) then some t else none := by
  simp only [aliasLoop] at h
  cases hs : aliasStep fakes fwr i t lab ll line with
  | none => rw [hs] at h; exact Option.noConfusion h
  | some r1 =>
    rw [hs] at h
    rw [aliasLoop_lookup_low fakes fwr _ _ _ _ _ _ _ h (Nat.le_refl _)]
    rw [aliasStep_lls _ _ _ _ _ _ _ _ hs]
    split
    · simp [List.lookup]
    · exact hinv (i + 1) (by omega)

/-! ## The claims -/

/-- Claim C2, amended: the `+1 mod 256` fix-up is applied by the direct-jump
encoder, by the function-name resolution pass, and by the synthetic jumps of
an `IF` expansion (targets `a+3` encoded as `a+3+1`) — but not by the
return-address `SET` of a call sequence, which stores the raw address of the
call jump itself (see the counterexample). -/
theorem C2_jump_plus_one (a id key jt : Nat) (name : String) :
    parse_instruction "JUMP FOO" [("FOO", a)] [] [] [] =
      some (some (.conc ⟨0, 0, (a + 1) % 256, OP_JUMP⟩)) ∧
    resolveNames [(name, some a)] [.jumpName key jt name] =
      [.conc ⟨key, jt, (a + 1) % 256, OP_JUMP⟩] ∧
    generate_if_instructions id "IF A == 0 THEN" [] [] [] a =
      some ([.conc ⟨11, 68, 0, OP_ALU⟩,
             .conc ⟨0, 1, (a + 3 + 1) % 256, OP_JUMP⟩,
             .conc ⟨0, 0, (a + 3 + 1) % 256, OP_JUMP⟩],
            [("_IF_END_" ++ natRepr id, a + 3), ("_IF_ELSE_" ++ natRepr id, a + 3),
             ("_IF_THEN_" ++ natRepr id, a + 3)]) := by
  refine ⟨rfl, ?_, rfl⟩
  simp [resolveNames, List.lookup]

/-- Claim C2, counterexample: in `C2C3prog` the call jump at slot 4 encodes
its target 5 as 6 = 5+1, but the return-address `SET` at slot 2 stores 4 —
the raw address of the call jump, with no `+1` and not the resume address
5. -/
theorem C2_counterexample :
    (assemble C2C3prog []).map (fun l => (l.get? 2, l.get? 4)) =
      some (some ⟨0, 3, 4, OP_SET⟩, some ⟨0, 0, 6, OP_JUMP⟩) ∧
    (4 : Nat) ≠ 5 + 1 := by decide

/-- Claim C3, amended: a call to a real function with `RETURN` lowers to a
store marker plus a named jump, and the store marker alone expands to two
final instructions (`SET D` + `PUSH`), so the call site occupies three final
instructions, not two; each `RETURN` expands to exactly two (`POP` into `D`
+ indirect `JUMP`), and a call to a function without `RETURN` is a single
jump. -/
theorem C3_call_return_sequences (fwr : List String) (name : String)
    (jt : Option String) (key addr : Nat) (acc rest : List PInstr) (loc : Nat) :
    (fwr.contains name = true →
      lowerRealCall fwr name jt key addr =
        [.storeRet addr, .jumpName key (jumpTypeCode jt) name] ∧
      lowerRealCallInc fwr name = 3) ∧
    (fwr.contains name = false →
      lowerRealCall fwr name jt key addr = [.jumpName key (jumpTypeCode jt) name] ∧
      lowerRealCallInc fwr name = 1) ∧
    expandSpecials acc (.storeRet loc :: rest) =
      expandSpecials (acc ++ [.conc ⟨0, 3, (acc.length + 2) % 256, OP_SET⟩,
                              .conc ⟨4 * STKOP_PUSH + STK_RETURN, 3, 0, OP_STACK⟩]) rest ∧
    expandSpecials acc (.retMark :: rest) =
      expandSpecials (acc ++ [.conc ⟨4 * STKOP_POP + STK_RETURN, 3, 0, OP_STACK⟩,
                              .conc ⟨16 * 1 + 0, 16 * 3 + 0, 0, OP_JUMP⟩]) rest := by
  refine ⟨?_, ?_, rfl, rfl⟩
  · intro hc
    have hm : name ∈ fwr := by simpa using hc
    simp [lowerRealCall, lowerRealCallInc, hm]
  · intro hc
    have hm : name ∉ fwr := by simpa using hc
    simp [lowerRealCall, lowerRealCallInc, hm]

theorem C3_call_return_sequences_witness :
    (lowerRealCall ["F"] "F" none 0 7 = [.storeRet 7, .jumpName 0 (jumpTypeCode none) "F"] ∧
     lowerRealCallInc ["F"] "F" = 3) ∧
    (lowerRealCall [] "F" none 0 7 = [.jumpName 0 (jumpTypeCode none) "F"] ∧
     lowerRealCallInc [] "F" = 1) :=
  ⟨(C3_call_return_sequences ["F"] "F" none 0 7 [] [] 0).1 (by decide),
   (C3_call_return_sequences [] "F" none 0 7 [] [] 0).2.1 (by decide)⟩

/-- Claim C3, counterexample: the call site of `C2C3prog` occupies three
final instructions — `SET D,4`, `PUSH RETURN D`, `JUMP 6` at slots 2‥4 — not
the claimed two (the `RETURN` itself does become exactly two: `POP` and
indirect `JUMP` at slots 6‥7). -/
theorem C3_counterexample :
    (assemble C2C3prog []).map (fun l => l.take 8) =
      some [⟨0, 0, 0, OP_NOP⟩, ⟨0, 0, 0, OP_NOP⟩, ⟨0, 3, 4, OP_SET⟩, ⟨0, 3, 0, OP_STACK⟩,
            ⟨0, 0, 6, OP_JUMP⟩, ⟨0, 0, 0, OP_HALT⟩, ⟨4, 3, 0, OP_STACK⟩, ⟨16, 48, 0, OP_JUMP⟩] ∧
    (3 : Nat) ≠ 2 := by decide

/-- Claim C4, amended: `IF A == B THEN … ELSE … END` with one-instruction
branches expands to exactly six instructions — COMPARE, jump-on-zero to the
then block (`a+3`, encoded `a+4`), unconditional jump to the else block
(`a+5`, encoded `a+6`), the then body, the jump over the else block (end
`a+6`, encoded `a+7`), and the else body — not seven; equal operands take
the zero-flag jump into the then branch. -/
theorem C4_if_else_expansion (a id : Nat) :
    generate_if_instructions id "IF A == B THEN" [setATo1] [setATo2] [] a =
      some ([.conc ⟨11, 4, 16, OP_ALU⟩,
             .conc ⟨0, 1, (a + 4) % 256, OP_JUMP⟩,
             .conc ⟨0, 0, (a + 6) % 256, OP_JUMP⟩,
             setATo1,
             .conc ⟨0, 0, (a + 7) % 256, OP_JUMP⟩,
             setATo2],
            [("_IF_END_" ++ natRepr id, a + 6), ("_IF_ELSE_" ++ natRepr id, a + 5),
             ("_IF_THEN_" ++ natRepr id, a + 3)]) := rfl

/-- Claim C4, counterexample: the expansion of
`IF A == B THEN SET A TO 1 ELSE SET A TO 2 END` has six instructions, not
seven. -/
theorem C4_counterexample :
    (generate_if_instructions 0 "IF A == B THEN" [setATo1] [setATo2] [] 10).map
      (fun r => r.1.length) = some 6 ∧ (6 : Nat) ≠ 7 := by decide

/-- Claim C5: the single-line program `HALT` assembles to
`[NOP, NOP, HALT, NOP×253]`; every accepted image starts with the two
reserved `NOP`s, and the main stream always ends in `HALT` (one is appended
when absent). -/
theorem C5_halt_image :
    assemble ["HALT"] [] =
      some ([nopInstr, nopInstr, haltInstr] ++ List.replicate 253 nopInstr) ∧
    (∀ lines ids out, assemble lines ids = some out →
        out.take 2 = [nopInstr, nopInstr]) ∧
    (∀ l, lastEntryIsHalt (ensureHalt l) = true) :=
  ⟨by decide, assemble_starts_nop_nop, lastEntryIsHalt_ensureHalt⟩

theorem C5_halt_image_witness :
    ((assemble ["NOP"] []).getD []).take 2 = [nopInstr, nopInstr] ∧
    lastEntryIsHalt (ensureHalt []) = true :=
  ⟨C5_halt_image.2.1 ["NOP"] [] ((assemble ["NOP"] []).getD []) (by decide),
   C5_halt_image.2.2 []⟩

/-- Claim C6: `parse_value` sends each of the six register names
(case-insensitively, after trimming) to `(REGISTER, code)` with the
documented codes A=0‥Y=5; a bracket-wrapped token to `(RAM, addr & 0xFF)`
with the interior parsed as a number; and any other token that parses as a
number to `(BUILTIN, value & 0xFF)`. -/
theorem C6_parse_value_cases (s : String) :
    (strUpper (strTrim s) = "A" → parse_value s = some (VT_REGISTER, 0)) ∧
    (strUpper (strTrim s) = "B" → parse_value s = some (VT_REGISTER, 1)) ∧
    (strUpper (strTrim s) = "C" → parse_value s = some (VT_REGISTER, 2)) ∧
    (strUpper (strTrim s) = "D" → parse_value s = some (VT_REGISTER, 3)) ∧
    (strUpper (strTrim s) = "X" → parse_value s = some (VT_REGISTER, 4)) ∧
    (strUpper (strTrim s) = "Y" → parse_value s = some (VT_REGISTER, 5)) ∧
    (∀ v : Int, strStarts (strUpper (strTrim s)) "[" = true →
        strEnds (strUpper (strTrim s)) "]" = true →
        parse_number (strDropRight (strDrop (strUpper (strTrim s)) 1) 1) = some v →
        parse_value s = some (VT_RAM, mask8 v)) ∧
    (∀ v : Int, List.lookup (strUpper (strTrim s)) REGISTERS = none →
        ¬(strStarts (strUpper (strTrim s)) "[" = true ∧
          strEnds (strUpper (strTrim s)) "]" = true) →
        parse_number (strUpper (strTrim s)) = some v →
        parse_value s = some (VT_BUILTIN, mask8 v)) := by
  refine ⟨?_, ?_, ?_, ?_, ?_, ?_, ?_, ?_⟩
  · intro h; simp only [parse_value, h]; decide
  · intro h; simp only [parse_value, h]; decide
  · intro h; simp only [parse_value, h]; decide
  · intro h; simp only [parse_value, h]; decide
  · intro h; simp only [parse_value, h]; decide
  · intro h; simp only [parse_value, h]; decide
  · intro v hs he hp
    have hn := lookup_REGISTERS_none_of_bracket _ hs
    simp [parse_value, hn, hs, he, hp]
  · intro v hl hb hp
    have hcond : (strStarts (strUpper (strTrim s)) "[" &&
        strEnds (strUpper (strTrim s)) "]") = false := by
      cases hS : strStarts (strUpper (strTrim s)) "[" <;>
        cases hE : strEnds (strUpper (strTrim s)) "]" <;> simp_all
    simp [parse_value, hl, hcond, hp]

theorem C6_parse_value_cases_witness :
    parse_value " a " = some (VT_REGISTER, 0) ∧
    parse_value "[300]" = some (VT_RAM, mask8 300) ∧
    parse_value "0x1FF" = some (VT_BUILTIN, mask8 511) :=
  ⟨(C6_parse_value_cases " a ").1 (by decide),
   (C6_parse_value_cases "[300]").2.2.2.2.2.2.1 300 (by decide) (by decide) (by decide),
   (C6_parse_value_cases "0x1FF").2.2.2.2.2.2.2 511 (by decide) (by decide) (by decide)⟩

/-- Claim C7: a binary ALU expression or an `IF` condition whose two operands
both parse as memory (`RAM`) operands is rejected (`None`/error), while any
combination with at most one memory operand goes on to encode. -/
theorem C7_two_memory_operands :
    (∀ v1 op v2 out a b, parse_value v1 = some (VT_RAM, a) →
        parse_value v2 = some (VT_RAM, b) → encodeAluBinary v1 op v2 out = none) ∧
    (∀ v1 op v2 out t1 a t2 b opn outc, parse_value v1 = some (t1, a) →
        parse_value v2 = some (t2, b) → ¬(t1 = VT_RAM ∧ t2 = VT_RAM) →
        List.lookup op ALU_OPS = some opn → List.lookup out REGISTERS = some outc →
        (encodeAluBinary v1 op v2 out).isSome = true) ∧
    (∀ l op r thenI elseI addr a b, parse_value l = some (VT_RAM, a) →
        parse_value r = some (VT_RAM, b) →
        genIfCondEval l op r thenI elseI addr = none) ∧
    (∀ l op r thenI elseI addr t1 a t2 b, parse_value l = some (t1, a) →
        parse_value r = some (t2, b) → ¬(t1 = VT_RAM ∧ t2 = VT_RAM) →
        (genIfCondEval l op r thenI elseI addr).isSome = true) := by
  refine ⟨?_, ?_, ?_, ?_⟩
  · intro v1 op v2 out a b h1 h2
    simp [encodeAluBinary, h1, h2, VT_RAM]
  · intro v1 op v2 out t1 a t2 b opn outc h1 h2 h3 h4 h5
    have hc : (t1 == VT_RAM && t2 == VT_RAM) = false := by
      cases e1 : (t1 == VT_RAM) <;> cases e2 : (t2 == VT_RAM) <;> simp_all
    simp [encodeAluBinary, h1, h2, hc, h4, h5]
  · intro l op r thenI elseI addr a b h1 h2
    simp [genIfCondEval, h1, h2, VT_RAM]
  · intro l op r thenI elseI addr t1 a t2 b h1 h2 h3
    have hc : (t1 == VT_RAM && t2 == VT_RAM) = false := by
      cases e1 : (t1 == VT_RAM) <;> cases e2 : (t2 == VT_RAM) <;> simp_all
    simp only [genIfCondEval, h1, h2, hc, Bool.false_eq_true, if_false]
    repeat' split
    all_goals rfl

theorem C7_two_memory_operands_witness :
    encodeAluBinary "[1]" "+" "[2]" "A" = none ∧
    (encodeAluBinary "[1]" "+" "2" "A").isSome = true ∧
    genIfCondEval "[1]" "==" "[2]" [] [] 0 = none ∧
    (genIfCondEval "[1]" "==" "2" [] [] 0).isSome = true :=
  ⟨C7_two_memory_operands.1 "[1]" "+" "[2]" "A" 1 2 (by decide) (by decide),
   C7_two_memory_operands.2.1 "[1]" "+" "2" "A" VT_RAM 1 VT_BUILTIN 2 0 0
     (by decide) (by decide) (by decide) (by decide) (by decide),
   C7_two_memory_operands.2.2.1 "[1]" "==" "[2]" [] [] 0 1 2 (by decide) (by decide),
   C7_two_memory_operands.2.2.2 "[1]" "==" "2" [] [] 0 VT_RAM 1 VT_BUILTIN 2
     (by decide) (by decide) (by decide)⟩

/-- Claim C8, amended: during the alias pass every line `n` (0-based) binds
the implicit alias `L(n+1)` to the instruction counter in effect when line
`n` is visited — including blank, comment-only and `: fake` lines — except a
pure label definition (a `:` with nothing after it), which binds nothing
(see the counterexample). -/
theorem C8_line_alias_binding (fakes : List (String × List String)) (fwr : List String)
    (lines : List String) (r : Nat × List (String × Nat) × List (Nat × Nat))
    (h : aliasPass fakes fwr lines = some r) (n : Nat) (hn : n < lines.length) :
    List.lookup (n + 1) r.2.2 =
      if aliasBindCond (cleanLine (lines.getD n "")) then
        some (aliasCounterBefore fakes fwr lines n) else none := by
  have hsplit : lines.take n ++ lines.drop n = lines := List.take_append_drop n lines
  have hlen : (lines.take n).length = n := by
    simp [List.length_take]; omega
  have hdrop : lines.drop n = lines.getD n "" :: lines.drop (n + 1) := by
    rw [List.getD_eq_getElem lines "" hn]
    exact List.drop_eq_getElem_cons hn
  rw [aliasPass, ← hsplit, aliasLoop_append] at h
  cases hpre : aliasLoop fakes fwr 0 2 [] [] (lines.take n) with
  | none => rw [hpre] at h; exact Option.noConfusion h
  | some r1 =>
    rw [hpre] at h
    rw [hlen, hdrop] at h
    have hinv : ∀ m, 0 + n < m → List.lookup m r1.2.2 = none := by
      intro m hm
      exact aliasLoop_lookup_high fakes fwr _ _ _ _ _ _ _ hpre (by rw [hlen]; omega) (by simp)
    have hfin := aliasLoop_lookup_line1 fakes fwr _ _ _ _ _ _ _ hinv h
    rw [show 0 + n = n from by omega] at hfin
    rw [hfin]
    have : aliasCounterBefore fakes fwr lines n = r1.1 := by
      rw [aliasCounterBefore, aliasPass, hpre]
    rw [this]

theorem C8_line_alias_binding_witness :
    List.lookup (1 + 1) ((aliasPass [] [] ["foo:", "NOP"]).getD (0, [], [])).2.2 =
      if aliasBindCond (cleanLine (["foo:", "NOP"].getD 1 "")) then
        some (aliasCounterBefore [] [] ["foo:", "NOP"] 1) else none :=
  C8_line_alias_binding [] [] ["foo:", "NOP"]
    ((aliasPass [] [] ["foo:", "NOP"]).getD (0, [], [])) (by decide) 1 (by decide)

/-- Claim C8, counterexample: in the two-line program `foo:` / `NOP` the
label-only line 0 gets no `L1` binding at all (lookup of key 1 yields
`none`), though the pass succeeds and line 1 does bind `L2`. -/
theorem C8_counterexample :
    (aliasPass [] [] ["foo:", "NOP"]).isSome = true ∧
    (aliasPass [] [] ["foo:", "NOP"]).map
      (fun r => (List.lookup 1 r.2.2, List.lookup 2 r.2.2)) = some (none, some 2) := by decide

/-- Claim C9, amended: the synthetic id only ever reaches the label table of
an `IF` expansion, never its instruction list — yet the id does leak into
the ROM whenever the source itself names a synthetic label, so two runs with
different wall clocks can produce different images (see the
counterexample). -/
theorem C9_id_independent_instructions (id1 id2 : Nat) (if_line : String)
    (thenI elseI : List PInstr) (labels : List (String × Nat)) (a : Nat) :
    (generate_if_instructions id1 if_line thenI elseI labels a).map Prod.fst =
      (generate_if_instructions id2 if_line thenI elseI labels a).map Prod.fst := by
  unfold generate_if_instructions
  cases h : genIfCore if_line thenI elseI a with
  | none => rfl
  | some r =>
    obtain ⟨instrs, bindings⟩ := r
    cases bindings with
    | none => rfl
    | some addrs => rfl

/-- Claim C9, counterexample: `C9prog` jumps to `_IF_THEN_42`, which collides
with the synthetic then-label when the wall-clock id is 42; assembling with
ids 42 and 43 both succeeds but yields different ROM1 word streams. -/
theorem C9_counterexample :
    (assemble C9prog [42]).isSome = true ∧ (assemble C9prog [43]).isSome = true ∧
    (assemble C9prog [42]).map rom1Words ≠ (assemble C9prog [43]).map rom1Words := by decide

/-- Claim C10: a `DRAW` parameter that is a register name contributes the
register's code, any other parameter contributes its parsed number masked to
4 bits (never a range error), and the five parameters pack as
`data3 = b`, `data2 = (r<<4)|g`, `data1 = (y<<4)|x`. -/
theorem C10_draw_encoding :
    (∀ t c, List.lookup (strUpper t) REGISTERS = some c → parse_draw_param t = some c) ∧
    (∀ t n, List.lookup (strUpper t) REGISTERS = none →
        parse_number (strUpper t) = some n → parse_draw_param t = some (mask4 n)) ∧
    (∀ p1 p2 p3 p4 p5 x y r g b,
        parse_draw_param p1 = some x → parse_draw_param p2 = some y →
        parse_draw_param p3 = some r → parse_draw_param p4 = some g →
        parse_draw_param p5 = some b →
        drawBranch ["DRAW", p1, p2, p3, p4, p5] =
          some (some (.conc ⟨16 * 0 + b % 16, 16 * (r % 16) + g % 16,
                             16 * (y % 16) + x % 16, OP_DRAW⟩))) := by
  refine ⟨?_, ?_, ?_⟩
  · intro t c h
    simp [parse_draw_param, h]
  · intro t n h1 h2
    simp [parse_draw_param, h1, h2]
  · intro p1 p2 p3 p4 p5 x y r g b h1 h2 h3 h4 h5
    simp [drawBranch, h1, h2, h3, h4, h5]

theorem C10_draw_encoding_witness :
    drawBranch ["DRAW", "1", "2", "3", "20", "B"] =
      some (some (.conc ⟨16 * 0 + 1 % 16, 16 * (3 % 16) + 4 % 16,
                         16 * (2 % 16) + 1 % 16, OP_DRAW⟩)) :=
  C10_draw_encoding.2.2 "1" "2" "3" "20" "B" 1 2 3 4 1
    (by decide) (by decide) (by decide) (by decide) (by decide)

end DLS
